import Mathlib

/-!
Verification of the educational content generator (study-material agent and
test agent). The Python sources are shallowly embedded: strings are lists of
characters, `json.dumps` / `json.loads` are modelled by an executable
serializer and recursive-descent parser over a `Json` value type, and the
LangGraph workflows are modelled as explicit node/edge graphs run by a small
interpreter. The language-model client is a parameter (an oracle from prompt
strings to `Except ServiceError` results); each workflow run also returns the
list of prompts sent to the client, in call order, so that call counts and
call order are observable.

Modelling notes, for tracing definitions back to the sources:
- Python `str.find` / `str.rfind` return -1 on failure; the models return
  `Option Nat` and the -1 is reintroduced exactly where the source consumes
  the raw integer (`extractJsonStr`).
- `json.loads` is modelled with a fuel parameter (`s.length + 1`) purely to
  make the recursion structural; Python floats are kept as unparsed numeric
  literals (`Json.floatLit`), which `json.dumps` of the values used by these
  agents never produces. A lone surrogate `\uXXXX` escape decodes to a
  placeholder character (Lean `Char` cannot hold surrogates); success and
  failure of the parse agree with Python either way.
- Python dict semantics for duplicate object keys (last value wins, first
  position kept) are modelled by `assocUpd`.
-/

/-! Python string helpers. -/

def pyWs (c : Char) : Bool :=
  c = ' ' || c = '\t' || c = '\n' || c = '\r' || c.toNat = 11 || c.toNat = 12

def jsonWs (c : Char) : Bool := c = ' ' || c = '\t' || c = '\n' || c = '\r'

def skipWs (s : List Char) : List Char := s.dropWhile jsonWs

def stripBoth (s : List Char) : List Char :=
  ((s.dropWhile pyWs).reverse.dropWhile pyWs).reverse

def isPref : List Char → List Char → Bool
  | [], _ => true
  | _ :: _, [] => false
  | a :: s, b :: t => a == b && isPref s t

def findSub : List Char → List Char → Option Nat
  | [], sub => if sub.isEmpty then some 0 else none
  | c :: rest, sub =>
    if isPref sub (c :: rest) then some 0 else (findSub rest sub).map (· + 1)

def rfindSub : List Char → List Char → Option Nat
  | [], sub => if sub.isEmpty then some 0 else none
  | c :: rest, sub =>
    match rfindSub rest sub with
    | some i => some (i + 1)
    | none => if isPref sub (c :: rest) then some 0 else none

def hasSub (s sub : List Char) : Bool := (findSub s sub).isSome

def findFromI (s sub : List Char) (i : Int) : Option Nat :=
  let st : Nat := if i < 0 then (max 0 (i + s.length)).toNat else i.toNat
  (findSub (s.drop st) sub).map (· + st)

def pySlice (s : List Char) (a b : Int) : List Char :=
  let n : Int := s.length
  let lo : Int := if a < 0 then max 0 (a + n) else min a n
  let hi : Int := if b < 0 then max 0 (b + n) else min b n
  (s.take hi.toNat).drop lo.toNat

def isDig (c : Char) : Bool := 48 ≤ c.toNat && c.toNat ≤ 57

/-! The JSON value model. `floatLit` holds an unparsed non-integer numeric
literal produced only by the parser, never by the agents' data. -/

inductive Json where
  | null
  | bool (b : Bool)
  | num (n : Int)
  | floatLit (lit : String)
  | str (s : String)
  | arr (xs : List Json)
  | obj (kvs : List (String × Json))

/-! Serializer: the model of `json.dumps` with default options
(`ensure_ascii=True`, separators `", "` and `": "`). -/

def digChar (d : Nat) : Char := Char.ofNat (48 + d)

def natDigitsF : Nat → Nat → List Char
  | 0, _ => []
  | f + 1, n => if n < 10 then [digChar n] else natDigitsF f (n / 10) ++ [digChar (n % 10)]

def natDigits (n : Nat) : List Char := natDigitsF (n + 1) n

def intRepr (n : Int) : List Char :=
  if n < 0 then '-' :: natDigits (-n).toNat else natDigits n.toNat

def intStr (n : Int) : String := String.mk (intRepr n)

def hexDigChar (d : Nat) : Char :=
  if d < 10 then Char.ofNat (48 + d) else Char.ofNat (87 + d)

def hex4 (n : Nat) : List Char :=
  [hexDigChar (n / 4096 % 16), hexDigChar (n / 256 % 16), hexDigChar (n / 16 % 16),
    hexDigChar (n % 16)]

def escapeChar (c : Char) : List Char :=
  if c = '\\' then ['\\', '\\']
  else if c = '"' then ['\\', '"']
  else if c = '\n' then ['\\', 'n']
  else if c = '\r' then ['\\', 'r']
  else if c = '\t' then ['\\', 't']
  else if c.toNat = 8 then ['\\', 'b']
  else if c.toNat = 12 then ['\\', 'f']
  else if 32 ≤ c.toNat && c.toNat ≤ 126 then [c]
  else if c.toNat < 65536 then '\\' :: 'u' :: hex4 c.toNat
  else
    ('\\' :: 'u' :: hex4 (55296 + (c.toNat - 65536) / 1024)) ++
      ('\\' :: 'u' :: hex4 (56320 + (c.toNat - 65536) % 1024))

def escape (cs : List Char) : List Char := (cs.map escapeChar).flatten

mutual
def ser : Json → List Char
  | .null => 'n' :: 'u' :: 'l' :: 'l' :: []
  | .bool true => 't' :: 'r' :: 'u' :: 'e' :: []
  | .bool false => 'f' :: 'a' :: 'l' :: 's' :: 'e' :: []
  | .num n => intRepr n
  | .floatLit lit => lit.data
  | .str s => '"' :: escape s.data ++ ['"']
  | .arr xs => '[' :: serItems xs ++ [']']
  | .obj kvs => '{' :: serMems kvs ++ ['}']
def serItems : List Json → List Char
  | [] => []
  | [x] => ser x
  | x :: y :: t => ser x ++ ',' :: ' ' :: serItems (y :: t)
def serMems : List (String × Json) → List Char
  | [] => []
  | [kv] => '"' :: escape kv.1.data ++ '"' :: ':' :: ' ' :: ser kv.2
  | kv :: kv2 :: t =>
    ('"' :: escape kv.1.data ++ '"' :: ':' :: ' ' :: ser kv.2) ++
      ',' :: ' ' :: serMems (kv2 :: t)
end

def serStr (v : Json) : String := String.mk (ser v)

/-! The model of `json.dumps(x, indent=2)` (used only in the grading prompt of
`evaluate_answers`): separators become `","` + newline-indent and `": "`. -/

mutual
def serInd : Nat → Json → List Char
  | _, .null => 'n' :: 'u' :: 'l' :: 'l' :: []
  | _, .bool true => 't' :: 'r' :: 'u' :: 'e' :: []
  | _, .bool false => 'f' :: 'a' :: 'l' :: 's' :: 'e' :: []
  | _, .num n => intRepr n
  | _, .floatLit lit => lit.data
  | _, .str s => '"' :: escape s.data ++ ['"']
  | _, .arr [] => '[' :: ']' :: []
  | lvl, .arr (x :: xs) =>
    '[' :: '\n' :: serIndItems (lvl + 2) (x :: xs) ++
      '\n' :: (List.replicate lvl ' ' ++ [']'])
  | _, .obj [] => '{' :: '}' :: []
  | lvl, .obj (kv :: t) =>
    '{' :: '\n' :: serIndMems (lvl + 2) (kv :: t) ++
      '\n' :: (List.replicate lvl ' ' ++ ['}'])
def serIndItems : Nat → List Json → List Char
  | _, [] => []
  | lvl, [x] => List.replicate lvl ' ' ++ serInd lvl x
  | lvl, x :: y :: t =>
    (List.replicate lvl ' ' ++ serInd lvl x) ++ ',' :: '\n' :: serIndItems lvl (y :: t)
def serIndMems : Nat → List (String × Json) → List Char
  | _, [] => []
  | lvl, [kv] =>
    List.replicate lvl ' ' ++ ('"' :: escape kv.1.data ++ '"' :: ':' :: ' ' :: serInd lvl kv.2)
  | lvl, kv :: kv2 :: t =>
    (List.replicate lvl ' ' ++
        ('"' :: escape kv.1.data ++ '"' :: ':' :: ' ' :: serInd lvl kv.2)) ++
      ',' :: '\n' :: serIndMems lvl (kv2 :: t)
end

def dumpsInd2 (v : Json) : String := String.mk (serInd 0 v)

/-! Well-formedness: the values that correspond to actual Python objects fed to
`json.dumps` (no float literals, object keys distinct at every level). -/

def noDupKeys : List String → Bool
  | [] => true
  | k :: t => !(t.contains k) && noDupKeys t

mutual
def wfJson : Json → Bool
  | .null => true
  | .bool _ => true
  | .num _ => true
  | .floatLit _ => false
  | .str _ => true
  | .arr xs => wfItems xs
  | .obj kvs => noDupKeys (kvs.map Prod.fst) && wfMems kvs
def wfItems : List Json → Bool
  | [] => true
  | x :: t => wfJson x && wfItems t
def wfMems : List (String × Json) → Bool
  | [] => true
  | kv :: t => wfJson kv.2 && wfMems t
end

/-! Fuel bound for the parser. -/

mutual
def jsize : Json → Nat
  | .null => 1
  | .bool _ => 1
  | .num _ => 1
  | .floatLit _ => 1
  | .str _ => 1
  | .arr xs => 1 + jsizeItems xs
  | .obj kvs => 1 + jsizeMems kvs
def jsizeItems : List Json → Nat
  | [] => 0
  | x :: t => 1 + jsize x + jsizeItems t
def jsizeMems : List (String × Json) → Nat
  | [] => 0
  | kv :: t => 1 + jsize kv.2 + jsizeMems t
end

/-! Parser: the model of `json.loads` (CPython pure-Python scanner in strict
mode). -/

def hexVal (c : Char) : Option Nat :=
  if 48 ≤ c.toNat && c.toNat ≤ 57 then some (c.toNat - 48)
  else if 97 ≤ c.toNat && c.toNat ≤ 102 then some (c.toNat - 87)
  else if 65 ≤ c.toNat && c.toNat ≤ 70 then some (c.toNat - 55)
  else none

def escDec (c : Char) : Option Char :=
  if c = '"' then some '"'
  else if c = '\\' then some '\\'
  else if c = '/' then some '/'
  else if c = 'b' then some (Char.ofNat 8)
  else if c = 'f' then some (Char.ofNat 12)
  else if c = 'n' then some '\n'
  else if c = 'r' then some '\r'
  else if c = 't' then some '\t'
  else none

def hex4Val : List Char → Option (Nat × List Char)
  | h1 :: h2 :: h3 :: h4 :: r2 =>
    match hexVal h1, hexVal h2, hexVal h3, hexVal h4 with
    | some a, some b, some c, some d => some (((a * 16 + b) * 16 + c) * 16 + d, r2)
    | _, _, _, _ => none
  | _ => none

def parseStrF : Nat → List Char → Option (List Char × List Char)
  | 0, _ => none
  | _, [] => none
  | f + 1, c :: r =>
    if c = '"' then some ([], r)
    else if c = '\\' then
      match r with
      | [] => none
      | e :: r1 =>
        if e = 'u' then
          match hex4Val r1 with
          | none => none
          | some (n, r2) =>
            if 55296 ≤ n && n ≤ 56319 then
              match r2 with
              | '\\' :: 'u' :: rr =>
                match hex4Val rr with
                | some (m, r3) =>
                  if 56320 ≤ m && m ≤ 57343 then
                    (parseStrF f r3).map
                      (fun p =>
                        (Char.ofNat (65536 + (n - 55296) * 1024 + (m - 56320)) :: p.1, p.2))
                  else
                    (parseStrF f ('\\' :: 'u' :: rr)).map
                      (fun p => (Char.ofNat n :: p.1, p.2))
                | none => none
              | _ => (parseStrF f r2).map (fun p => (Char.ofNat n :: p.1, p.2))
            else (parseStrF f r2).map (fun p => (Char.ofNat n :: p.1, p.2))
        else
          match escDec e with
          | some ec => (parseStrF f r1).map (fun p => (ec :: p.1, p.2))
          | none => none
    else if c.toNat < 32 then none
    else (parseStrF f r).map (fun p => (c :: p.1, p.2))

def parseStr (s : List Char) : Option (List Char × List Char) :=
  parseStrF (s.length + 1) s

def digitsVal (ds : List Char) : Nat := ds.foldl (fun a c => a * 10 + (c.toNat - 48)) 0

def parseFrac (s : List Char) : List Char × List Char :=
  match s with
  | '.' :: r2 =>
    if (r2.takeWhile isDig).isEmpty then ([], s)
    else ('.' :: r2.takeWhile isDig, r2.dropWhile isDig)
  | _ => ([], s)

def parseExp (s : List Char) : List Char × List Char :=
  match s with
  | e :: r2 =>
    if e = 'e' || e = 'E' then
      let sg : List Char × List Char :=
        match r2 with
        | '+' :: r3 => (['+'], r3)
        | '-' :: r3 => (['-'], r3)
        | _ => ([], r2)
      if (sg.2.takeWhile isDig).isEmpty then ([], s)
      else (e :: sg.1 ++ sg.2.takeWhile isDig, sg.2.dropWhile isDig)
    else ([], s)
  | [] => ([], s)

def parseNumBody (neg : Bool) (s1 : List Char) : Option (Json × List Char) :=
  match s1 with
  | [] => none
  | c :: r =>
    if isDig c then
      let ip : List Char × List Char :=
        if c = '0' then (['0'], r) else ((c :: r).takeWhile isDig, (c :: r).dropWhile isDig)
      let fp := parseFrac ip.2
      let ep := parseExp fp.2
      if fp.1.isEmpty && ep.1.isEmpty then
        some (.num (if neg then -(digitsVal ip.1 : Int) else (digitsVal ip.1 : Int)), ip.2)
      else
        some (.floatLit (String.mk ((if neg then ['-'] else []) ++ ip.1 ++ fp.1 ++ ep.1)), ep.2)
    else none

def parseNum (s : List Char) : Option (Json × List Char) :=
  match s with
  | '-' :: r => parseNumBody true r
  | _ => parseNumBody false s

def nullLit : List Char := 'n' :: 'u' :: 'l' :: 'l' :: []

def trueLit : List Char := 't' :: 'r' :: 'u' :: 'e' :: []

def falseLit : List Char := 'f' :: 'a' :: 'l' :: 's' :: 'e' :: []

def nanLit : List Char := 'N' :: 'a' :: 'N' :: []

def infLit : List Char := 'I' :: 'n' :: 'f' :: 'i' :: 'n' :: 'i' :: 't' :: 'y' :: []

def ninfLit : List Char := '-' :: infLit

def assocUpd (l : List (String × Json)) (k : String) (v : Json) : List (String × Json) :=
  if l.any (fun p => p.1 == k) then
    l.map (fun p => if p.1 == k then (p.1, v) else p)
  else l ++ [(k, v)]

def foldUpd : List (String × Json) → List (String × Json) → List (String × Json)
  | acc, [] => acc
  | acc, kv :: t => foldUpd (assocUpd acc kv.1 kv.2) t

def sepOk : List Char → Bool
  | [] => true
  | c :: _ => !(isDig c || c = '.' || c = 'e' || c = 'E')

mutual
def parseValue : Nat → List Char → Option (Json × List Char)
  | 0, _ => none
  | f + 1, s =>
    match s with
    | [] => none
    | c :: r =>
      if c = '"' then (parseStr r).map (fun p => (Json.str (String.mk p.1), p.2))
      else if c = '{' then
        match skipWs r with
        | '}' :: r2 => some (.obj [], r2)
        | r1 => parseMems f [] r1
      else if c = '[' then
        match skipWs r with
        | ']' :: r2 => some (.arr [], r2)
        | r1 => (parseItems f r1).map (fun p => (Json.arr p.1, p.2))
      else if isPref nullLit s then some (.null, s.drop 4)
      else if isPref trueLit s then some (.bool true, s.drop 4)
      else if isPref falseLit s then some (.bool false, s.drop 5)
      else
        match parseNum s with
        | some p => some p
        | none =>
          if isPref nanLit s then some (.floatLit "NaN", s.drop 3)
          else if isPref infLit s then some (.floatLit "Infinity", s.drop 8)
          else if isPref ninfLit s then some (.floatLit "-Infinity", s.drop 9)
          else none
def parseItems : Nat → List Char → Option (List Json × List Char)
  | 0, _ => none
  | f + 1, s =>
    match parseValue f s with
    | none => none
    | some (v, r) =>
      match skipWs r with
      | ']' :: r2 => some ([v], r2)
      | ',' :: r2 =>
        match parseItems f (skipWs r2) with
        | some (vs, r3) => some (v :: vs, r3)
        | none => none
      | _ => none
def parseMems : Nat → List (String × Json) → List Char → Option (Json × List Char)
  | 0, _, _ => none
  | f + 1, acc, s =>
    match s with
    | '"' :: r =>
      match parseStr r with
      | none => none
      | some (k, r1) =>
        match skipWs r1 with
        | ':' :: r2 =>
          match parseValue f (skipWs r2) with
          | none => none
          | some (v, r3) =>
            match skipWs r3 with
            | '}' :: r4 => some (.obj (assocUpd acc (String.mk k) v), r4)
            | ',' :: r4 => parseMems f (assocUpd acc (String.mk k) v) (skipWs r4)
            | _ => none
        | _ => none
    | _ => none
end

def loads (s : List Char) : Option Json :=
  match parseValue (s.length + 1) (skipWs s) with
  | some (v, rest) => if (skipWs rest).isEmpty then some v else none
  | none => none

/-! The shared response-parsing step of `generate_test_questions` and
`evaluate_answers` (test agent lines 108-124 and 191-205): fenced-block
extraction, then brace extraction, then the whole text; `json.loads`; fallback
object on `JSONDecodeError`. -/

def btick : Char := Char.ofNat 96

def btjTag : List Char := btick :: btick :: btick :: 'j' :: 's' :: 'o' :: 'n' :: []

def bt3 : List Char := btick :: btick :: btick :: []

def extractJsonStr (t : List Char) : List Char :=
  if hasSub t btjTag then
    let js : Int := (match findSub t btjTag with | some i => (i : Int) | none => -1) + 7
    let je : Int := match findFromI t bt3 js with | some j => (j : Int) | none => -1
    stripBoth (pySlice t js je)
  else if hasSub t ['{'] then
    let js : Int := match findSub t ['{'] with | some i => (i : Int) | none => -1
    let je : Int := (match rfindSub t ['}'] with | some i => (i : Int) | none => -1) + 1
    pySlice t js je
  else t

def parseResponse (k : String) (t : String) : Json :=
  match loads (extractJsonStr t.data) with
  | some v => v
  | none => .obj [(k, .str t)]

/-! The completion client: an oracle from prompts to results. -/

structure ServiceError where
  msg : String

def LLM : Type := String → Except ServiceError String

def okOracle (f : String → String) : LLM := fun p => .ok (f p)

/-! LangGraph model: named nodes, directed edges, sequential interpreter that
follows the unique outgoing edge from the current node and threads the state.
Each node returns the updated state together with the prompts it sent. -/

structure PyGraph (σ : Type) where
  nodes : List (String × (LLM → σ → Except ServiceError (σ × List String)))
  edges : List (String × String)

def STARTN : String := "__start__"

def ENDN : String := "__end__"

def nextNode {σ : Type} (g : PyGraph σ) (n : String) : Option String :=
  (g.edges.find? (fun e => e.1 == n)).map (fun e => e.2)

def nodeFn {σ : Type} (g : PyGraph σ) (n : String) :
    Option (LLM → σ → Except ServiceError (σ × List String)) :=
  (g.nodes.find? (fun e => e.1 == n)).map (fun e => e.2)

def runGraph {σ : Type} (g : PyGraph σ) (llm : LLM) :
    Nat → String → σ → List String → Except ServiceError (σ × List String)
  | 0, _, s, log => .ok (s, log)
  | fuel + 1, cur, s, log =>
    match nextNode g cur with
    | none => .ok (s, log)
    | some nxt =>
      if nxt == ENDN then .ok (s, log)
      else
        match nodeFn g nxt with
        | none => .ok (s, log)
        | some nf =>
          match nf llm s with
          | .error e => .error e
          | .ok (s2, ps) => runGraph g llm fuel nxt s2 (log ++ ps)

def invokeGraph {σ : Type} (g : PyGraph σ) (llm : LLM) (s : σ) :
    Except ServiceError (σ × List String) :=
  runGraph g llm (g.nodes.length + 2) STARTN s []

def pathFrom {σ : Type} (g : PyGraph σ) : Nat → String → List String
  | 0, n => [n]
  | f + 1, n =>
    n :: (match nextNode g n with | none => [] | some m => pathFrom g f m)

/-! Study agent (ICSE_8th_Physicsstudy_agent.py). -/

structure Doc where
  name : Option String
  text : Option String

def docLine (d : Doc) : String :=
  "File: " ++ (match d.name with | some s => s | none => "None") ++ "\n" ++
    (match d.text with | some t => t | none => "(no extract)")

def docsText (docs : List Doc) : String :=
  match docs with
  | [] => "No user documents provided."
  | _ => String.intercalate "\n" (docs.map docLine)

def generate_prompt (theme class_name subject : String) (user_docs : List Doc)
    (counts : List (String × Json)) : String :=
  "You are an expert ICSE teacher for 8th Standard Physics. Create comprehensive study material based on the following:\n\nTheme: " ++
    theme ++ "\nClass: " ++ class_name ++ "\nSubject: " ++ subject ++
    "\nBoard: ICSE\n\nUser provided documents (if any):\n" ++ docsText user_docs ++
    "\n\nGeneration parameters (counts): " ++ serStr (Json.obj counts) ++
    "\n\nCreate ONLY content for ICSE 8th Standard Physics. Use the user documents to inform and enrich examples and questions where relevant.\n\nProduce the following sections. Respect the requested number of items for each question type (counts) and organize by difficulty levels (EASY, MEDIUM, HARD, HARDEST) where applicable.\n\n1. STUDY CONTENT & KEY POINTS: overview, 5-7 key learning points with explanations, important definitions, practical applications.\n2. MCQs: generate the specified total number of MCQs and split them across difficulty levels roughly evenly.\n3. TRUE OR FALSE: generate the specified total number and split across difficulties.\n4. FILL IN THE BLANKS: generate the specified total number and split across difficulties.\n5. SHORT Q&A (3-4 lines): generate the specified total number split by difficulties.\n6. MEDIUM Q&A (6-7 lines): generate the specified total number split by difficulties.\n7. LONG Q&A (10-20 lines): generate the specified total number split by difficulties.\n\nFormat the output clearly with headings for each section and difficulty, and include answers for all questions."

structure StudyMaterialState where
  theme : String
  class_name : String
  subject : String
  prompt : String
  study_content : String
  mcqs : String
  true_false : String
  fill_blanks : String
  short_qa : String
  medium_qa : String
  long_qa : String
  user_docs : List Doc
  counts : List (String × Json)

def generate_study_content (llm : LLM) (state : StudyMaterialState) :
    Except ServiceError (StudyMaterialState × List String) :=
  let p := generate_prompt state.theme state.class_name state.subject state.user_docs
      state.counts ++ "\n\nNow provide the STUDY CONTENT & KEY POINTS section only."
  match llm p with
  | .error e => .error e
  | .ok r => .ok ({ state with study_content := r }, [p])

def generate_mcqs (llm : LLM) (state : StudyMaterialState) :
    Except ServiceError (StudyMaterialState × List String) :=
  let p := generate_prompt state.theme state.class_name state.subject state.user_docs
      state.counts ++ "\n\nNow provide the MCQs section only, respecting the requested counts."
  match llm p with
  | .error e => .error e
  | .ok r => .ok ({ state with mcqs := r }, [p])

def generate_true_false (llm : LLM) (state : StudyMaterialState) :
    Except ServiceError (StudyMaterialState × List String) :=
  let p := generate_prompt state.theme state.class_name state.subject state.user_docs
      state.counts ++ "\n\nNow provide the True/False section only, respecting the requested counts."
  match llm p with
  | .error e => .error e
  | .ok r => .ok ({ state with true_false := r }, [p])

def generate_fill_blanks (llm : LLM) (state : StudyMaterialState) :
    Except ServiceError (StudyMaterialState × List String) :=
  let p := generate_prompt state.theme state.class_name state.subject state.user_docs
      state.counts ++ "\n\nNow provide the Fill-in-the-Blanks section only, respecting the requested counts."
  match llm p with
  | .error e => .error e
  | .ok r => .ok ({ state with fill_blanks := r }, [p])

def generate_short_qa (llm : LLM) (state : StudyMaterialState) :
    Except ServiceError (StudyMaterialState × List String) :=
  let p := generate_prompt state.theme state.class_name state.subject state.user_docs
      state.counts ++ "\n\nNow provide the Short Q&A section only, respecting the requested counts and length."
  match llm p with
  | .error e => .error e
  | .ok r => .ok ({ state with short_qa := r }, [p])

def generate_medium_qa (llm : LLM) (state : StudyMaterialState) :
    Except ServiceError (StudyMaterialState × List String) :=
  let p := generate_prompt state.theme state.class_name state.subject state.user_docs
      state.counts ++ "\n\nNow provide the Medium Q&A section only, respecting the requested counts and length."
  match llm p with
  | .error e => .error e
  | .ok r => .ok ({ state with medium_qa := r }, [p])

def generate_long_qa (llm : LLM) (state : StudyMaterialState) :
    Except ServiceError (StudyMaterialState × List String) :=
  let p := generate_prompt state.theme state.class_name state.subject state.user_docs
      state.counts ++ "\n\nNow provide the Long Q&A section only, respecting the requested counts and length."
  match llm p with
  | .error e => .error e
  | .ok r => .ok ({ state with long_qa := r }, [p])

def build_study_graph : PyGraph StudyMaterialState :=
  { nodes := [("generate_study_content", generate_study_content),
      ("generate_mcqs", generate_mcqs),
      ("generate_true_false", generate_true_false),
      ("generate_fill_blanks", generate_fill_blanks),
      ("generate_short_qa", generate_short_qa),
      ("generate_medium_qa", generate_medium_qa),
      ("generate_long_qa", generate_long_qa)],
    edges := [(STARTN, "generate_study_content"),
      ("generate_study_content", "generate_mcqs"),
      ("generate_mcqs", "generate_true_false"),
      ("generate_true_false", "generate_fill_blanks"),
      ("generate_fill_blanks", "generate_short_qa"),
      ("generate_short_qa", "generate_medium_qa"),
      ("generate_medium_qa", "generate_long_qa"),
      ("generate_long_qa", ENDN)] }

def study_graph : PyGraph StudyMaterialState := build_study_graph

def generate_study_material (llm : LLM) (theme class_name subject : String)
    (user_docs : Option (List Doc)) (counts : Option (List (String × Json))) :
    Except ServiceError (StudyMaterialState × List String) :=
  let initial : StudyMaterialState :=
    { theme := theme, class_name := class_name, subject := subject, prompt := "",
      study_content := "", mcqs := "", true_false := "", fill_blanks := "",
      short_qa := "", medium_qa := "", long_qa := "",
      user_docs := match user_docs with | some l => l | none => [],
      counts := match counts with | some c => c | none => [] }
  invokeGraph study_graph llm initial

def studyPrompts (theme class_name subject : String) (user_docs : List Doc)
    (counts : List (String × Json)) : List String :=
  [generate_prompt theme class_name subject user_docs counts ++
      "\n\nNow provide the STUDY CONTENT & KEY POINTS section only.",
    generate_prompt theme class_name subject user_docs counts ++
      "\n\nNow provide the MCQs section only, respecting the requested counts.",
    generate_prompt theme class_name subject user_docs counts ++
      "\n\nNow provide the True/False section only, respecting the requested counts.",
    generate_prompt theme class_name subject user_docs counts ++
      "\n\nNow provide the Fill-in-the-Blanks section only, respecting the requested counts.",
    generate_prompt theme class_name subject user_docs counts ++
      "\n\nNow provide the Short Q&A section only, respecting the requested counts and length.",
    generate_prompt theme class_name subject user_docs counts ++
      "\n\nNow provide the Medium Q&A section only, respecting the requested counts and length.",
    generate_prompt theme class_name subject user_docs counts ++
      "\n\nNow provide the Long Q&A section only, respecting the requested counts and length."]

def sectionEntries (r : StudyMaterialState) : List (String × String) :=
  [("study_content", r.study_content), ("mcqs", r.mcqs), ("true_false", r.true_false),
    ("fill_blanks", r.fill_blanks), ("short_qa", r.short_qa), ("medium_qa", r.medium_qa),
    ("long_qa", r.long_qa)]

/-! Test agent (ICSE_8th_Physics_test_agent.py). -/

structure TestState where
  theme : String
  class_name : String
  subject : String
  num_mcq : Int
  num_true_false : Int
  num_fill_blanks : Int
  num_short_qa : Int
  num_medium_qa : Int
  num_long_qa : Int
  questions : Json
  user_answers : Json
  corrections : Json

def generate_test_prompt (theme class_name subject : String)
    (num_mcq num_true_false num_fill_blanks num_short_qa num_medium_qa num_long_qa : Int) :
    String :=
  "You are an expert ICSE 8th Standard Physics teacher. Create a comprehensive test for the following topic:\n\nTheme: " ++
    theme ++ "\nClass: " ++ class_name ++ "\nSubject: " ++ subject ++
    "\nBoard: ICSE\n\nGenerate EXACTLY the following number of questions for each section, with questions organized by difficulty levels (EASY, MEDIUM, HARD, HARDEST). Distribute questions roughly evenly across difficulty levels for each section.\n\nREQUIREMENTS:\n1. MCQs: Generate " ++
    intStr num_mcq ++
    " multiple choice questions (4 options each, clearly mark correct answer)\n2. TRUE OR FALSE: Generate " ++
    intStr num_true_false ++
    " true/false statements\n3. FILL IN THE BLANKS: Generate " ++
    intStr num_fill_blanks ++
    " fill-in-the-blank questions\n4. SHORT Q&A (3-4 lines): Generate " ++
    intStr num_short_qa ++
    " short question & answer pairs\n5. MEDIUM Q&A (6-7 lines): Generate " ++
    intStr num_medium_qa ++
    " medium question & answer pairs\n6. LONG Q&A (10-20 lines): Generate " ++
    intStr num_long_qa ++
    " long question & answer pairs\n\nReturn the output as a valid JSON with this structure:\n\x7b\n    \"mcqs\": \x7b\n        \"EASY\": [\n            \x7b\"question\": \"...\", \"options\": [\"A\", \"B\", \"C\", \"D\"], \"answer\": \"A\", \"explanation\": \"...\"\x7d\n        ],\n        \"MEDIUM\": [...],\n        \"HARD\": [...],\n        \"HARDEST\": [...]\n    \x7d,\n    \"true_false\": \x7b\n        \"EASY\": [\n            \x7b\"statement\": \"...\", \"answer\": true/false, \"explanation\": \"...\"\x7d\n        ],\n        ...\n    \x7d,\n    \"fill_blanks\": \x7b\n        \"EASY\": [\n            \x7b\"question\": \"... _____ ...\", \"answer\": \"word\", \"explanation\": \"...\"\x7d\n        ],\n        ...\n    \x7d,\n    \"short_qa\": \x7b\n        \"EASY\": [\n            \x7b\"question\": \"...\", \"answer\": \"...\", \"points\": 1\x7d\n        ],\n        ...\n    \x7d,\n    \"medium_qa\": \x7b\n        \"EASY\": [\n            \x7b\"question\": \"...\", \"answer\": \"...\", \"points\": 3\x7d\n        ],\n        ...\n    \x7d,\n    \"long_qa\": \x7b\n        \"EASY\": [\n            \x7b\"question\": \"...\", \"answer\": \"...\", \"points\": 5\x7d\n        ],\n        ...\n    \x7d\n\x7d\n\nEnsure all content is appropriate for 8th Standard ICSE Physics syllabus. Make questions comprehensive and test understanding."

def generate_test_questions (llm : LLM) (state : TestState) :
    Except ServiceError (TestState × List String) :=
  let p := generate_test_prompt state.theme state.class_name state.subject
    state.num_mcq state.num_true_false state.num_fill_blanks
    state.num_short_qa state.num_medium_qa state.num_long_qa
  match llm p with
  | .error e => .error e
  | .ok r => .ok ({ state with questions := parseResponse "raw_response" r }, [p])

def build_test_graph : PyGraph TestState :=
  { nodes := [("generate_test_questions", generate_test_questions)],
    edges := [(STARTN, "generate_test_questions"), ("generate_test_questions", ENDN)] }

def test_graph : PyGraph TestState := build_test_graph

def generate_test (llm : LLM) (theme class_name subject : String)
    (num_mcq num_true_false num_fill_blanks num_short_qa num_medium_qa num_long_qa : Int) :
    Except ServiceError (TestState × List String) :=
  let initial : TestState :=
    { theme := theme, class_name := class_name, subject := subject,
      num_mcq := num_mcq, num_true_false := num_true_false,
      num_fill_blanks := num_fill_blanks, num_short_qa := num_short_qa,
      num_medium_qa := num_medium_qa, num_long_qa := num_long_qa,
      questions := .obj [], user_answers := .obj [], corrections := .obj [] }
  invokeGraph test_graph llm initial

def evaluate_answers (llm : LLM) (questions user_answers : Json) :
    Except ServiceError Json :=
  let p :=
    "You are an ICSE Physics teacher evaluating student answers.\n\nQUESTIONS AND CORRECT ANSWERS:\n" ++
      dumpsInd2 questions ++ "\n\nSTUDENT ANSWERS:\n" ++ dumpsInd2 user_answers ++
      "\n\nEvaluate each answer and provide:\n1. Whether it\x27s correct or incorrect\n2. Score for this answer (0 for completely wrong, partial for partially correct, full for correct)\n3. Detailed explanation of the correct answer\n4. What the student missed or did incorrectly\n\nReturn as JSON with structure:\n\x7b\n    \"question_id\": \x7b\n        \"is_correct\": true/false,\n        \"score\": 0/partial/full,\n        \"feedback\": \"...\",\n        \"correct_answer\": \"...\"\n    \x7d\n\x7d"
  match llm p with
  | .error e => .error e
  | .ok r => .ok (parseResponse "raw_feedback" r)

/-! Observation helpers used by claim statements. -/

def lookupJ (kvs : List (String × Json)) (k : String) : Option Json :=
  (kvs.find? (fun p => p.1 == k)).map (fun p => p.2)

def diffBandEmpty (v : Json) : Bool :=
  match v with
  | .arr xs => xs.isEmpty
  | _ => true

def mcqsNoQuestions (bank : Json) : Bool :=
  match bank with
  | .obj kvs =>
    match lookupJ kvs "mcqs" with
    | none => true
    | some (.obj diffs) => diffs.all (fun d => diffBandEmpty d.2)
    | some (.arr xs) => xs.isEmpty
    | some _ => true
  | _ => true


/-! Basic facts about the string-search helpers. -/

theorem isPref_length {sub t : List Char} (h : isPref sub t = true) :
    sub.length ≤ t.length := by
  induction sub generalizing t with
  | nil => simp
  | cons a s ih =>
    cases t with
    | nil => simp [isPref] at h
    | cons b t2 =>
      simp only [isPref, Bool.and_eq_true, beq_iff_eq] at h
      have := ih h.2
      simp only [List.length_cons]
      omega

theorem isPref_append (a b : List Char) : isPref a (a ++ b) = true := by
  induction a with
  | nil => simp [isPref]
  | cons c t ih => simp [isPref, ih]

theorem isPref_one {c : Char} {t : List Char} (h : isPref [c] t = true) :
    ∃ rest, t = c :: rest := by
  cases t with
  | nil => simp [isPref] at h
  | cons b t2 =>
    simp only [isPref, Bool.and_eq_true, beq_iff_eq] at h
    exact ⟨t2, by simp [h.1]⟩

theorem isPref_three {a b c : Char} {t : List Char} (h : isPref [a, b, c] t = true) :
    ∃ rest, t = a :: b :: c :: rest := by
  match t with
  | [] => simp [isPref] at h
  | [x] => simp [isPref] at h
  | [x, y] => simp [isPref] at h
  | x :: y :: z :: rest =>
    simp only [isPref, Bool.and_eq_true, beq_iff_eq] at h
    exact ⟨rest, by simp [h.1, h.2.1, h.2.2.1]⟩

theorem findSub_some_iff (s sub : List Char) (i : Nat) :
    findSub s sub = some i ↔
      isPref sub (s.drop i) = true ∧ ∀ j, j < i → isPref sub (s.drop j) = false := by
  induction s generalizing i with
  | nil =>
    cases sub with
    | nil =>
      simp only [findSub, List.isEmpty_nil, if_true, List.drop_nil, isPref, true_and,
        Option.some.injEq]
      constructor
      · rintro rfl
        intro j hj
        omega
      · intro h
        by_contra hne
        simpa using h 0 (by omega)
    | cons a t => simp [findSub, isPref]
  | cons c s2 ih =>
    by_cases hp : isPref sub (c :: s2) = true
    · constructor
      · intro h
        rw [findSub, if_pos hp] at h
        injection h with h
        subst h
        exact ⟨by simpa using hp, fun j hj => absurd hj (by omega)⟩
      · rintro ⟨h1, h2⟩
        rw [findSub, if_pos hp]
        rcases Nat.eq_zero_or_pos i with rfl | hpos
        · rfl
        · have := h2 0 hpos
          rw [List.drop_zero] at this
          rw [this] at hp
          exact absurd hp (by simp)
    · have hp2 : isPref sub (c :: s2) = false := by
        revert hp
        cases isPref sub (c :: s2) <;> simp
      cases i with
      | zero =>
        constructor
        · intro h
          rw [findSub, if_neg hp] at h
          rcases Option.map_eq_some'.mp h with ⟨i3, _, hE⟩
          omega
        · rintro ⟨h1, _⟩
          rw [List.drop_zero] at h1
          exact absurd h1 hp
      | succ i2 =>
        constructor
        · intro h
          rw [findSub, if_neg hp] at h
          rcases Option.map_eq_some'.mp h with ⟨i3, hfind, hE⟩
          have hi : i3 = i2 := by omega
          rw [hi] at hfind
          obtain ⟨ha, hb⟩ := (ih i2).mp hfind
          refine ⟨by simpa [List.drop_succ_cons] using ha, ?_⟩
          intro j hj
          cases j with
          | zero => simpa using hp2
          | succ j2 =>
            rw [List.drop_succ_cons]
            exact hb j2 (by omega)
        · rintro ⟨h1, h2⟩
          rw [findSub, if_neg hp]
          have hb : ∀ j, j < i2 → isPref sub (s2.drop j) = false := by
            intro j hj
            have := h2 (j + 1) (by omega)
            rwa [List.drop_succ_cons] at this
          have : findSub s2 sub = some i2 := by
            apply (ih i2).mpr
            exact ⟨by simpa [List.drop_succ_cons] using h1, hb⟩
          rw [this]
          rfl

theorem findSub_isSome_of_pref {sub : List Char} :
    ∀ (s : List Char) (j : Nat), isPref sub (s.drop j) = true →
      ∃ i, findSub s sub = some i := by
  intro s
  induction s with
  | nil =>
    intro j hc2
    rw [List.drop_nil] at hc2
    cases sub with
    | nil => exact ⟨0, rfl⟩
    | cons a t => simp [isPref] at hc2
  | cons c s2 ih =>
    intro j hc2
    by_cases hp : isPref sub (c :: s2) = true
    · exact ⟨0, by rw [findSub, if_pos hp]⟩
    · cases j with
      | zero =>
        rw [List.drop_zero] at hc2
        exact absurd hc2 hp
      | succ j2 =>
        rw [List.drop_succ_cons] at hc2
        rcases ih j2 hc2 with ⟨i2, hi2⟩
        exact ⟨i2 + 1, by rw [findSub, if_neg hp, hi2]; rfl⟩

theorem findSub_none_iff (s sub : List Char) :
    findSub s sub = none ↔ ∀ j, isPref sub (s.drop j) = false := by
  cases h : findSub s sub with
  | none =>
    simp only [true_iff]
    intro j
    by_contra hc
    have hc2 : isPref sub (s.drop j) = true := by
      revert hc
      cases isPref sub (s.drop j) <;> simp
    rcases findSub_isSome_of_pref s j hc2 with ⟨i, hi⟩
    rw [h] at hi
    exact absurd hi (by simp)
  | some i =>
    constructor
    · intro hi
      exact absurd hi (by simp)
    · intro hall
      obtain ⟨ha, _⟩ := (findSub_some_iff s sub i).mp h
      rw [hall i] at ha
      exact absurd ha (by simp)

theorem rfindSub_none_iff (s sub : List Char) :
    rfindSub s sub = none ↔ ∀ j, isPref sub (s.drop j) = false := by
  induction s with
  | nil =>
    cases sub with
    | nil => simp [rfindSub, isPref]
    | cons a t => simp [rfindSub, isPref]
  | cons c s2 ih =>
    constructor
    · intro h
      rw [rfindSub] at h
      cases hr : rfindSub s2 sub with
      | some i => rw [hr] at h; exact absurd h (by simp)
      | none =>
        rw [hr] at h
        by_cases hp : isPref sub (c :: s2) = true
        · rw [if_pos hp] at h; exact absurd h (by simp)
        · intro j
          cases j with
          | zero =>
            rw [List.drop_zero]
            revert hp
            cases isPref sub (c :: s2) <;> simp
          | succ j2 =>
            rw [List.drop_succ_cons]
            exact (ih.mp hr) j2
    · intro h
      have h0 : isPref sub (c :: s2) = false := by simpa using h 0
      have hr : rfindSub s2 sub = none := by
        apply ih.mpr
        intro j
        simpa [List.drop_succ_cons] using h (j + 1)
      rw [rfindSub, hr, if_neg (by simp [h0])]

theorem rfindSub_some_iff (s sub : List Char) (i : Nat) (hs : sub ≠ []) :
    rfindSub s sub = some i ↔
      isPref sub (s.drop i) = true ∧ ∀ j, i < j → isPref sub (s.drop j) = false := by
  induction s generalizing i with
  | nil =>
    cases sub with
    | nil => exact absurd rfl hs
    | cons a t =>
      simp [rfindSub, isPref]
  | cons c s2 ih =>
    cases hr : rfindSub s2 sub with
    | some i2 =>
      obtain ⟨ha, hb⟩ := (ih i2).mp hr
      constructor
      · intro h
        rw [rfindSub, hr] at h
        injection h with h
        subst h
        refine ⟨by simpa [List.drop_succ_cons] using ha, ?_⟩
        intro j hj
        match j, hj with
        | j2 + 1, hj =>
          rw [List.drop_succ_cons]
          exact hb j2 (by omega)
      · rintro ⟨h1, h2⟩
        rw [rfindSub, hr]
        cases i with
        | zero =>
          have := h2 (i2 + 1) (by omega)
          rw [List.drop_succ_cons] at this
          rw [this] at ha
          exact absurd ha (by simp)
        | succ i3 =>
          have hb2 : ∀ j, i3 < j → isPref sub (s2.drop j) = false := by
            intro j hj
            have := h2 (j + 1) (by omega)
            rwa [List.drop_succ_cons] at this
          have h1b : isPref sub (s2.drop i3) = true := by
            simpa [List.drop_succ_cons] using h1
          have : rfindSub s2 sub = some i3 := (ih i3).mpr ⟨h1b, hb2⟩
          rw [hr] at this
          injection this with this
          subst this
          rfl
    | none =>
      have hall : ∀ j, isPref sub (s2.drop j) = false := (rfindSub_none_iff s2 sub).mp hr
      by_cases hp : isPref sub (c :: s2) = true
      · constructor
        · intro h
          rw [rfindSub, hr, if_pos hp] at h
          injection h with h
          subst h
          refine ⟨by simpa using hp, ?_⟩
          intro j hj
          match j, hj with
          | j2 + 1, _ =>
            rw [List.drop_succ_cons]
            exact hall j2
        · rintro ⟨h1, h2⟩
          rw [rfindSub, hr, if_pos hp]
          cases i with
          | zero => rfl
          | succ i3 =>
            have := h1
            rw [List.drop_succ_cons] at this
            rw [hall i3] at this
            exact absurd this (by simp)
      · constructor
        · intro h
          rw [rfindSub, hr, if_neg hp] at h
          exact absurd h (by simp)
        · rintro ⟨h1, h2⟩
          cases i with
          | zero =>
            rw [List.drop_zero] at h1
            exact absurd h1 hp
          | succ i3 =>
            rw [List.drop_succ_cons] at h1
            rw [hall i3] at h1
            exact absurd h1 (by simp)

theorem findSub_bound {s sub : List Char} {i : Nat} (h : findSub s sub = some i)
    (hs : sub ≠ []) : i + sub.length ≤ s.length := by
  obtain ⟨ha, _⟩ := (findSub_some_iff s sub i).mp h
  have hl := isPref_length ha
  rw [List.length_drop] at hl
  have : 1 ≤ sub.length := by
    cases sub with
    | nil => exact absurd rfl hs
    | cons a t => simp
  omega

/-! Character-class facts. -/

theorem isDig_toNat {c : Char} (h : isDig c = true) : 48 ≤ c.toNat ∧ c.toNat ≤ 57 := by
  simpa [isDig] using h

theorem jsonWs_eq_false_of_dig {c : Char} (h : isDig c = true) : jsonWs c = false := by
  cases hj : jsonWs c with
  | false => rfl
  | true =>
    simp only [jsonWs, Bool.or_eq_true, decide_eq_true_eq] at hj
    rcases hj with ((h3 | h3) | h3) | h3 <;> subst h3 <;> exact absurd h (by decide)

theorem dig_ne {c : Char} (h : isDig c = true) :
    c ≠ '-' ∧ c ≠ '.' ∧ c ≠ 'e' ∧ c ≠ 'E' ∧ c ≠ '"' ∧ c ≠ '{' ∧ c ≠ '[' ∧ c ≠ ']' ∧
      c ≠ ',' ∧ c ≠ '}' := by
  refine ⟨?_, ?_, ?_, ?_, ?_, ?_, ?_, ?_, ?_, ?_⟩ <;>
    · intro he
      subst he
      exact absurd h (by decide)

/-! Decimal digit strings. -/

theorem digitsVal_append_one (l : List Char) (c : Char) :
    digitsVal (l ++ [c]) = digitsVal l * 10 + (c.toNat - 48) := by
  simp [digitsVal, List.foldl_append]

theorem digChar_facts : ∀ m : Nat, m < 10 →
    isDig (digChar m) = true ∧ (1 ≤ m → digChar m ≠ '0') ∧ (digChar m).toNat = 48 + m := by
  decide

theorem natDigitsF_spec : ∀ f n, n < f →
    natDigitsF f n ≠ [] ∧ (∀ c ∈ natDigitsF f n, isDig c = true) ∧
      digitsVal (natDigitsF f n) = n ∧
      (1 ≤ n → ∀ c t, natDigitsF f n = c :: t → c ≠ '0') := by
  intro f
  induction f with
  | zero => intro n h; omega
  | succ f ih =>
    intro n h
    rw [natDigitsF]
    by_cases h10 : n < 10
    · rw [if_pos h10]
      obtain ⟨hd1, hd2, hd3⟩ := digChar_facts n h10
      refine ⟨by simp, by simpa using hd1, ?_, ?_⟩
      · simp [digitsVal, hd3]
      · intro h1 c t hct
        injection hct with hc ht
        subst hc
        exact hd2 h1
    · rw [if_neg h10]
      have hrec := ih (n / 10) (by omega)
      obtain ⟨hr1, hr2, hr3, hr4⟩ := hrec
      obtain ⟨hm1, _, hm3⟩ := digChar_facts (n % 10) (by omega)
      refine ⟨by simp, ?_, ?_, ?_⟩
      · intro c hc
        rcases List.mem_append.mp hc with hc | hc
        · exact hr2 c hc
        · rw [List.mem_singleton.mp hc]; exact hm1
      · rw [digitsVal_append_one, hr3, hm3]
        omega
      · intro _ c t hct
        obtain ⟨c0, t0, hc0⟩ : ∃ c0 t0, natDigitsF f (n / 10) = c0 :: t0 := by
          cases hh : natDigitsF f (n / 10) with
          | nil => exact absurd hh hr1
          | cons a b => exact ⟨a, b, rfl⟩
        have hche := hr4 (by omega) c0 t0 hc0
        rw [hc0] at hct
        simp only [List.cons_append] at hct
        injection hct with hc _
        subst hc
        exact hche

theorem natDigits_spec (n : Nat) :
    natDigits n ≠ [] ∧ (∀ c ∈ natDigits n, isDig c = true) ∧
      digitsVal (natDigits n) = n ∧
      (1 ≤ n → ∀ c t, natDigits n = c :: t → c ≠ '0') :=
  natDigitsF_spec (n + 1) n (by omega)

/-! takeWhile / dropWhile over digit blocks. -/

theorem takeWhile_digits_append (ds rest : List Char)
    (hall : ∀ c ∈ ds, isDig c = true) (hrest : sepOk rest = true) :
    (ds ++ rest).takeWhile isDig = ds ∧ (ds ++ rest).dropWhile isDig = rest := by
  induction ds with
  | nil =>
    simp only [List.nil_append]
    cases rest with
    | nil => simp
    | cons r0 rr =>
      have hr0 : isDig r0 = false := by
        simp only [sepOk, Bool.not_eq_eq_eq_not, Bool.not_true, Bool.or_eq_false_iff] at hrest
        exact hrest.1.1.1
      simp [List.takeWhile_cons, List.dropWhile_cons, hr0]
  | cons d ds2 ih =>
    have hd : isDig d = true := hall d (List.mem_cons_self d ds2)
    obtain ⟨ih1, ih2⟩ := ih (fun c hc => hall c (List.mem_cons_of_mem d hc))
    simp [List.takeWhile_cons, List.dropWhile_cons, hd, ih1, ih2]

theorem sepOk_head {r0 : Char} {rr : List Char} (h : sepOk (r0 :: rr) = true) :
    isDig r0 = false ∧ r0 ≠ '.' ∧ r0 ≠ 'e' ∧ r0 ≠ 'E' := by
  simp only [sepOk, Bool.not_eq_eq_eq_not, Bool.not_true, Bool.or_eq_false_iff,
    decide_eq_false_iff_not] at h
  exact ⟨h.1.1.1, h.1.1.2, h.1.2, h.2⟩


/-! Round trip for integers through `parseNum`. -/

theorem parseFrac_skip {r0 : Char} (rr : List Char) (h : r0 ≠ '.') :
    parseFrac (r0 :: rr) = ([], r0 :: rr) := by
  unfold parseFrac
  split
  · rename_i r2 heq
    injection heq with heq1 _
    exact absurd heq1 h
  · rfl

theorem parseExp_skip {r0 : Char} (rr : List Char) (h1 : r0 ≠ 'e') (h2 : r0 ≠ 'E') :
    parseExp (r0 :: rr) = ([], r0 :: rr) := by
  unfold parseExp
  split
  · rename_i e r2 heq
    injection heq with he hr
    subst he
    rw [if_neg (by simp [h1, h2])]
  · rename_i heq
    exact absurd heq (by simp)

theorem parseNum_of_head_ne {c : Char} (r : List Char) (h : c ≠ '-') :
    parseNum (c :: r) = parseNumBody false (c :: r) := by
  unfold parseNum
  split
  · rename_i r2 heq
    injection heq with heq1 _
    exact absurd heq1 h
  · rfl

theorem parseFrac_sep {rest : List Char} (h : sepOk rest = true) :
    parseFrac rest = ([], rest) := by
  cases rest with
  | nil => rfl
  | cons r0 rr => exact parseFrac_skip rr (sepOk_head h).2.1

theorem parseExp_sep {rest : List Char} (h : sepOk rest = true) :
    parseExp rest = ([], rest) := by
  cases rest with
  | nil => rfl
  | cons r0 rr => exact parseExp_skip rr (sepOk_head h).2.2.1 (sepOk_head h).2.2.2

theorem parseNumBody_digits (neg : Bool) (m : Nat) (rest : List Char)
    (h : sepOk rest = true) (hm : neg = true → 1 ≤ m) :
    parseNumBody neg (natDigits m ++ rest) =
      some (Json.num (if neg then -(m : Int) else (m : Int)), rest) := by
  obtain ⟨hne, hdig, hval, hhead⟩ := natDigits_spec m
  obtain ⟨c, ds, hcd⟩ : ∃ c ds, natDigits m = c :: ds := by
    cases hh : natDigits m with
    | nil => exact absurd hh hne
    | cons a b => exact ⟨a, b, rfl⟩
  have hdc : isDig c = true := hdig c (by rw [hcd]; exact List.mem_cons_self c ds)
  rw [hcd]
  simp only [List.cons_append]
  unfold parseNumBody
  simp only [if_pos hdc]
  by_cases hc0 : c = '0'
  · have hm0 : m = 0 := by
      by_contra hmne
      exact absurd hc0 (hhead (by omega) c ds hcd)
    subst hm0
    have h0 : natDigits 0 = ['0'] := rfl
    rw [h0] at hcd
    injection hcd with hc hds
    subst hc
    have hds2 : ds = [] := hds.symm
    subst hds2
    rw [if_pos rfl]
    simp only [List.nil_append]
    rw [parseFrac_sep h, parseExp_sep h]
    simp [digitsVal]
  · rw [if_neg hc0]
    have hall2 : ∀ x ∈ c :: ds, isDig x = true := by
      intro x hx
      exact hdig x (by rw [hcd]; exact hx)
    obtain ⟨htake, hdrop⟩ := takeWhile_digits_append (c :: ds) rest hall2 h
    simp only [List.cons_append] at htake hdrop
    rw [htake, hdrop, parseFrac_sep h, parseExp_sep h]
    have hvalm : digitsVal (c :: ds) = m := by rw [← hcd]; exact hval
    simp [hvalm]

theorem parseNum_intRepr (n : Int) (rest : List Char) (h : sepOk rest = true) :
    parseNum (intRepr n ++ rest) = some (Json.num n, rest) := by
  unfold intRepr
  by_cases hn : n < 0
  · rw [if_pos hn]
    simp only [List.cons_append]
    have hr : parseNum ('-' :: (natDigits (-n).toNat ++ rest)) =
        parseNumBody true (natDigits (-n).toNat ++ rest) := rfl
    rw [hr, parseNumBody_digits true (-n).toNat rest h (fun _ => by omega)]
    simp only [if_true, Option.some.injEq, Json.num.injEq, Prod.mk.injEq, and_true]
    omega
  · rw [if_neg hn]
    obtain ⟨hne, hdig, _, _⟩ := natDigits_spec n.toNat
    obtain ⟨c, ds, hcd⟩ : ∃ c ds, natDigits n.toNat = c :: ds := by
      cases hh : natDigits n.toNat with
      | nil => exact absurd hh hne
      | cons a b => exact ⟨a, b, rfl⟩
    have hdc : isDig c = true := hdig c (by rw [hcd]; exact List.mem_cons_self c ds)
    rw [hcd]
    simp only [List.cons_append]
    rw [parseNum_of_head_ne _ (dig_ne hdc).1]
    have := parseNumBody_digits false n.toNat rest h (by simp)
    rw [hcd] at this
    simp only [List.cons_append] at this
    rw [this]
    simp only [if_neg (by simp : ¬ false = true)]
    have he : ((n.toNat : Int)) = n := by omega
    rw [he]

/-! Round trip for strings through `parseStrF`. -/

theorem hexVal_hexDigChar : ∀ d : Nat, d < 16 → hexVal (hexDigChar d) = some d := by
  decide

theorem hex_arith (n : Nat) (h : n < 65536) :
    ((n / 4096 % 16 * 16 + n / 256 % 16) * 16 + n / 16 % 16) * 16 + n % 16 = n := by
  omega

theorem char_valid_facts (c : Char) :
    c.toNat < 1114112 ∧ (c.toNat < 55296 ∨ 57343 < c.toNat) := by
  have he : c.toNat = c.val.toNat := rfl
  have hv := c.valid
  simp only [UInt32.isValidChar, Nat.isValidChar] at hv
  rw [he]
  rcases hv with h | h
  · exact ⟨by omega, Or.inl (by omega)⟩
  · exact ⟨by omega, Or.inr (by omega)⟩

theorem escape_cons (c : Char) (cs : List Char) :
    escape (c :: cs) = escapeChar c ++ escape cs := by
  simp [escape]

theorem escapeChar_pos (c : Char) : 1 ≤ (escapeChar c).length := by
  unfold escapeChar
  split_ifs <;> simp [hex4]

theorem escape_len (cs : List Char) : cs.length ≤ (escape cs).length := by
  induction cs with
  | nil => simp [escape]
  | cons c cs ih =>
    rw [escape_cons, List.length_append, List.length_cons]
    have := escapeChar_pos c
    omega

theorem hex4Val_encode (n : Nat) (h : n < 65536) (rest : List Char) :
    hex4Val (hex4 n ++ rest) = some (n, rest) := by
  simp only [hex4, List.cons_append, List.nil_append]
  simp only [hex4Val]
  rw [hexVal_hexDigChar _ (by omega), hexVal_hexDigChar _ (by omega),
    hexVal_hexDigChar _ (by omega), hexVal_hexDigChar _ (by omega)]
  simp only []
  rw [hex_arith n h]

theorem parseStrF_u_single (f n : Nat) (h9 : n < 65536)
    (hcond : (decide (55296 ≤ n) && decide (n ≤ 56319)) = false) (r2 : List Char) :
    parseStrF (f + 1) ('\\' :: 'u' :: (hex4 n ++ r2)) =
      (parseStrF f r2).map (fun p => (Char.ofNat n :: p.1, p.2)) := by
  simp only [parseStrF]
  simp [hex4Val_encode n h9, hcond]

theorem parseStrF_u_pair (f n m : Nat) (hn : n < 65536) (hm2 : m < 65536)
    (hcn : (decide (55296 ≤ n) && decide (n ≤ 56319)) = true)
    (hcm : (decide (56320 ≤ m) && decide (m ≤ 57343)) = true) (r3 : List Char) :
    parseStrF (f + 1) ('\\' :: 'u' :: (hex4 n ++ ('\\' :: 'u' :: (hex4 m ++ r3)))) =
      (parseStrF f r3).map
        (fun p => (Char.ofNat (65536 + (n - 55296) * 1024 + (m - 56320)) :: p.1, p.2)) := by
  simp only [parseStrF]
  simp [hex4Val_encode n hn, hex4Val_encode m hm2, hcn, hcm]

theorem parseStrF_escape : ∀ (cs rest : List Char) (f : Nat),
    cs.length < f → parseStrF f (escape cs ++ '"' :: rest) = some (cs, rest) := by
  intro cs
  induction cs with
  | nil =>
    intro rest f hf
    match f, hf with
    | f + 1, _ => simp [escape, parseStrF]
  | cons c cs ih =>
    intro rest f hf
    match f, hf with
    | f + 1, hf =>
      have hf2 : cs.length < f := by
        simp only [List.length_cons] at hf
        omega
      have hih := ih (rest) f hf2
      rw [escape_cons, List.append_assoc]
      by_cases h1 : c = '\\'
      · subst h1
        simp [escapeChar, parseStrF, escDec, hih]
      by_cases h2 : c = '"'
      · subst h2
        simp [escapeChar, parseStrF, escDec, hih]
      by_cases h3 : c = '\n'
      · subst h3
        simp [escapeChar, parseStrF, escDec, hih]
      by_cases h4 : c = '\r'
      · subst h4
        simp [escapeChar, parseStrF, escDec, hih]
      by_cases h5 : c = '\t'
      · subst h5
        simp [escapeChar, parseStrF, escDec, hih]
      by_cases h6 : c.toNat = 8
      · have hc : c = Char.ofNat 8 := by rw [← Char.ofNat_toNat c, h6]
        subst hc
        simp [escapeChar, parseStrF, escDec, hih]
      by_cases h7 : c.toNat = 12
      · have hc : c = Char.ofNat 12 := by rw [← Char.ofNat_toNat c, h7]
        subst hc
        simp [escapeChar, parseStrF, escDec, hih]
      by_cases h8 : 32 ≤ c.toNat ∧ c.toNat ≤ 126
      · have hesc : escapeChar c = [c] := by
          unfold escapeChar
          rw [if_neg h1, if_neg h2, if_neg h3, if_neg h4, if_neg h5, if_neg h6, if_neg h7,
            if_pos (by simp [h8.1, h8.2])]
        rw [hesc]
        have hlt : ¬ c.toNat < 32 := by omega
        simp only [List.cons_append, List.nil_append]
        simp only [parseStrF]
        rw [if_neg h2, if_neg h1, if_neg hlt, hih]
        rfl
      obtain ⟨hlt2, hsur⟩ := char_valid_facts c
      by_cases h9 : c.toNat < 65536
      · have hesc : escapeChar c = '\\' :: 'u' :: hex4 c.toNat := by
          unfold escapeChar
          rw [if_neg h1, if_neg h2, if_neg h3, if_neg h4, if_neg h5, if_neg h6, if_neg h7,
            if_neg (by simp; omega), if_pos h9]
        rw [hesc]
        simp only [List.cons_append]
        have hcond : (decide (55296 ≤ c.toNat) && decide (c.toNat ≤ 56319)) = false := by
          rcases hsur with hs | hs <;> simp <;> omega
        rw [parseStrF_u_single f c.toNat h9 hcond, hih, Char.ofNat_toNat]
        rfl
      · have hesc : escapeChar c =
            ('\\' :: 'u' :: hex4 (55296 + (c.toNat - 65536) / 1024)) ++
              ('\\' :: 'u' :: hex4 (56320 + (c.toNat - 65536) % 1024)) := by
          unfold escapeChar
          rw [if_neg h1, if_neg h2, if_neg h3, if_neg h4, if_neg h5, if_neg h6, if_neg h7,
            if_neg (by simp; omega), if_neg h9]
        rw [hesc]
        have hm : c.toNat - 65536 < 1048576 := by omega
        simp only [List.cons_append, List.append_assoc]
        have hcond1 : (decide (55296 ≤ 55296 + (c.toNat - 65536) / 1024) &&
            decide (55296 + (c.toNat - 65536) / 1024 ≤ 56319)) = true := by
          simp
          omega
        have hcond2 : (decide (56320 ≤ 56320 + (c.toNat - 65536) % 1024) &&
            decide (56320 + (c.toNat - 65536) % 1024 ≤ 57343)) = true := by
          simp
          omega
        rw [parseStrF_u_pair f (55296 + (c.toNat - 65536) / 1024)
          (56320 + (c.toNat - 65536) % 1024) (by omega) (by omega) hcond1 hcond2, hih]
        have hc3 : 65536 + (55296 + (c.toNat - 65536) / 1024 - 55296) * 1024 +
            (56320 + (c.toNat - 65536) % 1024 - 56320) = c.toNat := by omega
        rw [hc3, Char.ofNat_toNat]
        rfl

theorem parseStr_escape (cs rest : List Char) :
    parseStr (escape cs ++ '"' :: rest) = some (cs, rest) := by
  unfold parseStr
  apply parseStrF_escape
  have h1 := escape_len cs
  rw [List.length_append, List.length_cons]
  omega

/-! Structural facts about the serializer and well-formedness. -/

theorem wf_arr (xs : List Json) : wfJson (.arr xs) = wfItems xs := rfl

theorem wf_obj (kvs : List (String × Json)) :
    wfJson (.obj kvs) = (noDupKeys (kvs.map Prod.fst) && wfMems kvs) := rfl

theorem wfItems_cons (x : Json) (t : List Json) :
    wfItems (x :: t) = (wfJson x && wfItems t) := rfl

theorem wfMems_cons (kv : String × Json) (t : List (String × Json)) :
    wfMems (kv :: t) = (wfJson kv.2 && wfMems t) := rfl

theorem jsize_pos (v : Json) : 1 ≤ jsize v := by
  cases v <;> simp [jsize]

theorem jsizeItems_cons (x : Json) (t : List Json) :
    jsizeItems (x :: t) = 1 + jsize x + jsizeItems t := rfl

theorem jsizeMems_cons (kv : String × Json) (t : List (String × Json)) :
    jsizeMems (kv :: t) = 1 + jsize kv.2 + jsizeMems t := rfl

theorem skipWs_cons_false {c : Char} (t : List Char) (h : jsonWs c = false) :
    skipWs (c :: t) = c :: t := by
  simp [skipWs, List.dropWhile_cons, h]

theorem skipWs_cons_true {c : Char} (t : List Char) (h : jsonWs c = true) :
    skipWs (c :: t) = skipWs t := by
  simp [skipWs, List.dropWhile_cons, h]

theorem ser_head (v : Json) (h : wfJson v = true) :
    ∃ c t, ser v = c :: t ∧ jsonWs c = false ∧ c ≠ ']' ∧ c ≠ '}' := by
  cases v with
  | null =>
    refine ⟨'n', _, rfl, ?_, ?_, ?_⟩ <;> decide
  | bool b =>
    cases b with
    | true =>
      refine ⟨'t', _, rfl, ?_, ?_, ?_⟩ <;> decide
    | false =>
      refine ⟨'f', _, rfl, ?_, ?_, ?_⟩ <;> decide
  | num n =>
    by_cases hn : n < 0
    · refine ⟨'-', natDigits (-n).toNat, ?_, by decide, by decide, by decide⟩
      rw [show ser (Json.num n) = intRepr n from rfl, intRepr, if_pos hn]
    · obtain ⟨hne, hdig, _, _⟩ := natDigits_spec n.toNat
      obtain ⟨c, ds, hcd⟩ : ∃ c ds, natDigits n.toNat = c :: ds := by
        cases hh : natDigits n.toNat with
        | nil => exact absurd hh hne
        | cons a b => exact ⟨a, b, rfl⟩
      have hdc : isDig c = true := hdig c (by rw [hcd]; exact List.mem_cons_self c ds)
      refine ⟨c, ds, ?_, jsonWs_eq_false_of_dig hdc, (dig_ne hdc).2.2.2.2.2.2.2.1,
        (dig_ne hdc).2.2.2.2.2.2.2.2.2⟩
      rw [show ser (Json.num n) = intRepr n from rfl, intRepr, if_neg hn, hcd]
  | floatLit l => simp [wfJson] at h
  | str s =>
    refine ⟨'"', _, rfl, ?_, ?_, ?_⟩ <;> decide
  | arr xs =>
    refine ⟨'[', serItems xs ++ [']'], rfl, ?_, ?_, ?_⟩ <;> decide
  | obj kvs =>
    refine ⟨'{', serMems kvs ++ ['}'], rfl, ?_, ?_, ?_⟩ <;> decide

theorem lits_not_pref_of_dig {c : Char} (h : isDig c = true) (t : List Char) :
    isPref nullLit (c :: t) = false ∧ isPref trueLit (c :: t) = false ∧
      isPref falseLit (c :: t) = false := by
  obtain ⟨h1, h2⟩ := isDig_toNat h
  have hne : ∀ d : Char, 97 ≤ d.toNat → (d == c) = false := by
    intro d hd
    simp only [beq_eq_false_iff_ne, ne_eq]
    intro he
    subst he
    omega
  refine ⟨?_, ?_, ?_⟩
  · simp [isPref, nullLit, hne 'n' (by decide)]
  · simp [isPref, trueLit, hne 't' (by decide)]
  · simp [isPref, falseLit, hne 'f' (by decide)]

/-! Object-accumulation facts: Python dict insertion over distinct keys. -/

theorem assocUpd_fresh (acc : List (String × Json)) (k : String) (v : Json)
    (h : acc.any (fun p => p.1 == k) = false) : assocUpd acc k v = acc ++ [(k, v)] := by
  simp [assocUpd, h]

theorem foldUpd_extend : ∀ (kvs acc : List (String × Json)),
    (∀ k ∈ kvs.map Prod.fst, acc.any (fun p => p.1 == k) = false) →
    noDupKeys (kvs.map Prod.fst) = true → foldUpd acc kvs = acc ++ kvs := by
  intro kvs
  induction kvs with
  | nil => intro acc _ _; simp [foldUpd]
  | cons kv t ih =>
    intro acc hfresh hnd
    have hnd2 : noDupKeys (t.map Prod.fst) = true := by
      simp only [List.map_cons, noDupKeys, Bool.and_eq_true] at hnd
      exact hnd.2
    have hnc : (t.map Prod.fst).contains kv.1 = false := by
      simp only [List.map_cons, noDupKeys, Bool.and_eq_true, Bool.not_eq_true'] at hnd
      exact hnd.1
    rw [foldUpd, assocUpd_fresh _ _ _ (hfresh kv.1 (by simp))]
    rw [ih (acc ++ [(kv.1, kv.2)]) ?_ hnd2]
    · simp
    · intro k hk
      rw [List.any_append]
      have ha : acc.any (fun p => p.1 == k) = false :=
        hfresh k (by simp only [List.map_cons]; exact List.mem_cons_of_mem _ hk)
      have hb : (kv.1 == k) = false := by
        by_contra hc
        have hbe : (kv.1 == k) = true := by
          revert hc
          cases kv.1 == k <;> simp
        have heq : kv.1 = k := by simpa using hbe
        subst heq
        rw [List.contains_eq_any_beq] at hnc
        have hmem : (t.map Prod.fst).any (fun x => kv.1 == x) = true := by
          rw [List.any_eq_true]
          exact ⟨kv.1, hk, by simp⟩
        rw [hmem] at hnc
        exact absurd hnc (by simp)
      simp [ha, hb]

theorem foldUpd_nil (kvs : List (String × Json))
    (hnd : noDupKeys (kvs.map Prod.fst) = true) : foldUpd [] kvs = kvs := by
  have := foldUpd_extend kvs [] (by simp) hnd
  simpa using this

/-! The parser fuel bound is below the serialized length. -/

theorem intRepr_ne_nil (n : Int) : intRepr n ≠ [] := by
  unfold intRepr
  split
  · simp
  · exact (natDigits_spec _).1

mutual
theorem jsize_le_ser : ∀ v : Json, wfJson v = true → jsize v ≤ (ser v).length
  | .null, _ => by simp [jsize, ser]
  | .bool b, _ => by cases b <;> simp [jsize, ser]
  | .num n, _ => by
    have h1 : intRepr n ≠ [] := intRepr_ne_nil n
    have h2 : 0 < (intRepr n).length := List.length_pos.mpr h1
    simp only [jsize, ser]
    omega
  | .floatLit l, h => by simp [wfJson] at h
  | .str s, _ => by simp [jsize, ser]
  | .arr xs, h => by
    have hi := jsizeItems_le xs (by rw [wf_arr] at h; exact h)
    simp only [jsize, ser, List.length_cons, List.length_append, List.length_singleton]
    omega
  | .obj kvs, h => by
    have hw : wfMems kvs = true := by
      rw [wf_obj] at h
      exact (Bool.and_eq_true_iff.mp h).2
    have hi := jsizeMems_le kvs hw
    simp only [jsize, ser, List.length_cons, List.length_append, List.length_singleton]
    omega
theorem jsizeItems_le : ∀ xs : List Json, wfItems xs = true →
    jsizeItems xs ≤ (serItems xs).length + 1
  | [], _ => by simp [jsizeItems, serItems]
  | [x], h => by
    have hx : wfJson x = true := by
      rw [wfItems_cons] at h
      exact (Bool.and_eq_true_iff.mp h).1
    have := jsize_le_ser x hx
    simp only [jsizeItems, serItems, jsizeItems]
    omega
  | x :: y :: t, h => by
    have hx : wfJson x = true := by
      rw [wfItems_cons] at h
      exact (Bool.and_eq_true_iff.mp h).1
    have ht : wfItems (y :: t) = true := by
      rw [wfItems_cons] at h
      exact (Bool.and_eq_true_iff.mp h).2
    have h1 := jsize_le_ser x hx
    have h2 := jsizeItems_le (y :: t) ht
    rw [jsizeItems_cons]
    rw [show serItems (x :: y :: t) = ser x ++ ',' :: ' ' :: serItems (y :: t) from rfl]
    simp only [List.length_append, List.length_cons]
    omega
theorem jsizeMems_le : ∀ kvs : List (String × Json), wfMems kvs = true →
    jsizeMems kvs ≤ (serMems kvs).length + 1
  | [], _ => by simp [jsizeMems, serMems]
  | [kv], h => by
    have hx : wfJson kv.2 = true := by
      rw [wfMems_cons] at h
      exact (Bool.and_eq_true_iff.mp h).1
    have := jsize_le_ser kv.2 hx
    rw [jsizeMems_cons]
    rw [show serMems [kv] = '"' :: escape kv.1.data ++ '"' :: ':' :: ' ' :: ser kv.2 from rfl]
    simp only [List.length_append, List.length_cons, jsizeMems]
    omega
  | kv :: kv2 :: t, h => by
    have hx : wfJson kv.2 = true := by
      rw [wfMems_cons] at h
      exact (Bool.and_eq_true_iff.mp h).1
    have ht : wfMems (kv2 :: t) = true := by
      rw [wfMems_cons] at h
      exact (Bool.and_eq_true_iff.mp h).2
    have h1 := jsize_le_ser kv.2 hx
    have h2 := jsizeMems_le (kv2 :: t) ht
    rw [jsizeMems_cons]
    rw [show serMems (kv :: kv2 :: t) =
      ('"' :: escape kv.1.data ++ '"' :: ':' :: ' ' :: ser kv.2) ++
        ',' :: ' ' :: serMems (kv2 :: t) from rfl]
    simp only [List.length_append, List.length_cons]
    omega
end

theorem skipWs_rbrk (t : List Char) : skipWs (']' :: t) = ']' :: t :=
  skipWs_cons_false t (by decide)

theorem skipWs_rbrace (t : List Char) : skipWs ('}' :: t) = '}' :: t :=
  skipWs_cons_false t (by decide)

theorem skipWs_comma (t : List Char) : skipWs (',' :: t) = ',' :: t :=
  skipWs_cons_false t (by decide)

theorem skipWs_colon (t : List Char) : skipWs (':' :: t) = ':' :: t :=
  skipWs_cons_false t (by decide)

theorem skipWs_quote (t : List Char) : skipWs ('"' :: t) = '"' :: t :=
  skipWs_cons_false t (by decide)

theorem skipWs_space (t : List Char) : skipWs (' ' :: t) = skipWs t :=
  skipWs_cons_true t (by decide)

theorem serItems_cons_shape (x : Json) (xs : List Json) :
    ∃ tail, serItems (x :: xs) = ser x ++ tail := by
  cases xs with
  | nil => exact ⟨[], by simp [serItems]⟩
  | cons y t => exact ⟨',' :: ' ' :: serItems (y :: t), rfl⟩

theorem serItems_shape (x : Json) (xs : List Json) (h : wfJson x = true) (suf : List Char) :
    ∃ c X, serItems (x :: xs) ++ suf = c :: X ∧ jsonWs c = false ∧ c ≠ ']' ∧ c ≠ '}' := by
  obtain ⟨tail, ht⟩ := serItems_cons_shape x xs
  obtain ⟨c0, t0, hc0, hws0, hb1, hb2⟩ := ser_head x h
  exact ⟨c0, t0 ++ (tail ++ suf), by rw [ht, hc0]; simp, hws0, hb1, hb2⟩

theorem skipWs_serItems (x : Json) (xs : List Json) (h : wfJson x = true) (suf : List Char) :
    skipWs (serItems (x :: xs) ++ suf) = serItems (x :: xs) ++ suf := by
  obtain ⟨c, X, hX, hws, _, _⟩ := serItems_shape x xs h suf
  rw [hX, skipWs_cons_false _ hws]

theorem skipWs_ser_append (v : Json) (h : wfJson v = true) (suf : List Char) :
    skipWs (ser v ++ suf) = ser v ++ suf := by
  obtain ⟨c0, t0, hc0, hws0, _, _⟩ := ser_head v h
  rw [hc0]
  simp only [List.cons_append]
  rw [skipWs_cons_false _ hws0]

theorem serMems_cons_shape (kv : String × Json) (t : List (String × Json)) :
    ∃ tail, serMems (kv :: t) =
      '"' :: (escape kv.1.data ++ '"' :: ':' :: ' ' :: (ser kv.2 ++ tail)) := by
  cases t with
  | nil => exact ⟨[], by rw [show serMems [kv] =
      '"' :: escape kv.1.data ++ '"' :: ':' :: ' ' :: ser kv.2 from rfl]; simp⟩
  | cons kv2 t2 =>
    exact ⟨',' :: ' ' :: serMems (kv2 :: t2), by rw [show serMems (kv :: kv2 :: t2) =
      ('"' :: escape kv.1.data ++ '"' :: ':' :: ' ' :: ser kv.2) ++
        ',' :: ' ' :: serMems (kv2 :: t2) from rfl]; simp⟩

theorem string_eta (s : String) : String.mk s.data = s := rfl

/-! The central serialize-parse round trip, by induction on parser fuel. -/

theorem parse_ser : ∀ f : Nat,
    (∀ v rest, wfJson v = true → jsize v ≤ f → sepOk rest = true →
      parseValue f (ser v ++ rest) = some (v, rest)) ∧
    (∀ xs rest, xs ≠ [] → wfItems xs = true → jsizeItems xs ≤ f →
      parseItems f (serItems xs ++ ']' :: rest) = some (xs, rest)) ∧
    (∀ kvs acc rest, kvs ≠ [] → wfMems kvs = true → jsizeMems kvs ≤ f →
      parseMems f acc (serMems kvs ++ '}' :: rest) = some (.obj (foldUpd acc kvs), rest)) := by
  intro f
  induction f with
  | zero =>
    refine ⟨?_, ?_, ?_⟩
    · intro v rest _ hs _
      have := jsize_pos v
      omega
    · intro xs rest hne _ hs
      match xs, hne with
      | x :: t, _ =>
        rw [jsizeItems_cons] at hs
        omega
    · intro kvs acc rest hne _ hs
      match kvs, hne with
      | kv :: t, _ =>
        rw [jsizeMems_cons] at hs
        omega
  | succ f ih =>
    obtain ⟨ihv, ihi, ihm⟩ := ih
    refine ⟨?_, ?_, ?_⟩
    · intro v rest hwf hsz hsep
      cases v with
      | null =>
        rw [show ser Json.null ++ rest = 'n' :: 'u' :: 'l' :: 'l' :: rest from rfl]
        simp only [parseValue]
        rw [if_neg (by decide), if_neg (by decide), if_neg (by decide),
          if_pos (by simp [isPref, nullLit])]
        rfl
      | bool b =>
        cases b with
        | true =>
          rw [show ser (Json.bool true) ++ rest = 't' :: 'r' :: 'u' :: 'e' :: rest from rfl]
          simp only [parseValue]
          rw [if_neg (by decide), if_neg (by decide), if_neg (by decide),
            if_neg (by simp [isPref, nullLit]), if_pos (by simp [isPref, trueLit])]
          rfl
        | false =>
          rw [show ser (Json.bool false) ++ rest =
            'f' :: 'a' :: 'l' :: 's' :: 'e' :: rest from rfl]
          simp only [parseValue]
          rw [if_neg (by decide), if_neg (by decide), if_neg (by decide),
            if_neg (by simp [isPref, nullLit]), if_neg (by simp [isPref, trueLit]),
            if_pos (by simp [isPref, falseLit])]
          rfl
      | num n =>
        rw [show ser (Json.num n) ++ rest = intRepr n ++ rest from rfl]
        have hp := parseNum_intRepr n rest hsep
        by_cases hn : n < 0
        · rw [intRepr, if_pos hn, List.cons_append]
          simp only [parseValue]
          rw [if_neg (by decide), if_neg (by decide), if_neg (by decide),
            if_neg (by simp [isPref, nullLit]), if_neg (by simp [isPref, trueLit]),
            if_neg (by simp [isPref, falseLit])]
          rw [intRepr, if_pos hn, List.cons_append] at hp
          rw [hp]
        · obtain ⟨hne, hdig, _, _⟩ := natDigits_spec n.toNat
          obtain ⟨c, ds, hcd⟩ : ∃ c ds, natDigits n.toNat = c :: ds := by
            cases hh : natDigits n.toNat with
            | nil => exact absurd hh hne
            | cons a b => exact ⟨a, b, rfl⟩
          have hdc : isDig c = true := hdig c (by rw [hcd]; exact List.mem_cons_self c ds)
          obtain ⟨hl1, hl2, hl3⟩ := lits_not_pref_of_dig hdc (ds ++ rest)
          rw [intRepr, if_neg hn, hcd, List.cons_append]
          simp only [parseValue]
          rw [if_neg (dig_ne hdc).2.2.2.2.1, if_neg (dig_ne hdc).2.2.2.2.2.1,
            if_neg (dig_ne hdc).2.2.2.2.2.2.1, if_neg (by simp [hl1]),
            if_neg (by simp [hl2]), if_neg (by simp [hl3])]
          rw [intRepr, if_neg hn, hcd, List.cons_append] at hp
          rw [hp]
      | floatLit l => simp [wfJson] at hwf
      | str s =>
        rw [show ser (Json.str s) ++ rest = '"' :: (escape s.data ++ '"' :: rest) by
          simp [ser]]
        simp only [parseValue]
        simp only [if_true]
        rw [parseStr_escape]
        rfl
      | arr xs =>
        cases xs with
        | nil =>
          rw [show ser (Json.arr []) ++ rest = '[' :: ']' :: rest from rfl]
          simp only [parseValue]
          rw [if_neg (by decide), if_neg (by decide)]
          simp only [if_true]
          rw [skipWs_rbrk]
          rfl
        | cons x xs2 =>
          have hparts : wfJson x = true ∧ wfItems xs2 = true := by
            rw [wf_arr, wfItems_cons] at hwf
            exact Bool.and_eq_true_iff.mp hwf
          rw [show ser (Json.arr (x :: xs2)) ++ rest =
            '[' :: (serItems (x :: xs2) ++ ']' :: rest) by simp [ser]]
          simp only [parseValue]
          rw [if_neg (by decide), if_neg (by decide)]
          simp only [if_true]
          obtain ⟨c0, X, hX, hws0, hnb0, _⟩ := serItems_shape x xs2 hparts.1 (']' :: rest)
          have harr := ihi (x :: xs2) rest (by simp) (by rw [wf_arr] at hwf; exact hwf) (by
            have hj : jsize (Json.arr (x :: xs2)) = 1 + jsizeItems (x :: xs2) := rfl
            omega)
          rw [hX, skipWs_cons_false _ hws0]
          split
          · rename_i r2 heq
            injection heq with h1 _
            exact absurd h1 hnb0
          · rw [← hX, harr]
            rfl
      | obj kvs =>
        cases kvs with
        | nil =>
          rw [show ser (Json.obj []) ++ rest = '{' :: '}' :: rest from rfl]
          simp only [parseValue]
          rw [if_neg (by decide)]
          simp only [if_true]
          rw [skipWs_rbrace]
          rfl
        | cons kv t =>
          have hnd : noDupKeys ((kv :: t).map Prod.fst) = true := by
            rw [wf_obj] at hwf
            exact (Bool.and_eq_true_iff.mp hwf).1
          have hwfm : wfMems (kv :: t) = true := by
            rw [wf_obj] at hwf
            exact (Bool.and_eq_true_iff.mp hwf).2
          rw [show ser (Json.obj (kv :: t)) ++ rest =
            '{' :: (serMems (kv :: t) ++ '}' :: rest) by simp [ser]]
          simp only [parseValue]
          rw [if_neg (by decide)]
          simp only [if_true]
          obtain ⟨tail, htl⟩ := serMems_cons_shape kv t
          have hX : serMems (kv :: t) ++ '}' :: rest =
              '"' :: (escape kv.1.data ++ '"' :: ':' :: ' ' :: (ser kv.2 ++ tail) ++
                '}' :: rest) := by
            rw [htl]
            simp
          have hobj := ihm (kv :: t) [] rest (by simp) hwfm (by
            have hj : jsize (Json.obj (kv :: t)) = 1 + jsizeMems (kv :: t) := rfl
            omega)
          rw [hX, skipWs_cons_false _ (by decide)]
          split
          · rename_i r2 heq
            injection heq with h1 _
            exact absurd h1 (by decide)
          · rw [← hX, hobj, foldUpd_nil _ hnd]
    · intro xs rest hne hwf hsz
      match xs, hne with
      | x :: xs2, _ =>
        have hparts : wfJson x = true ∧ wfItems xs2 = true := by
          rw [wfItems_cons] at hwf
          exact Bool.and_eq_true_iff.mp hwf
        rw [jsizeItems_cons] at hsz
        simp only [parseItems]
        cases xs2 with
        | nil =>
          rw [show serItems [x] = ser x from rfl]
          rw [ihv x (']' :: rest) hparts.1 (by omega) rfl]
          simp [skipWs_rbrk]
        | cons y t2 =>
          rw [show serItems (x :: y :: t2) ++ ']' :: rest =
            ser x ++ ',' :: ' ' :: (serItems (y :: t2) ++ ']' :: rest) by
            rw [show serItems (x :: y :: t2) =
              ser x ++ ',' :: ' ' :: serItems (y :: t2) from rfl]
            simp]
          rw [ihv x (',' :: ' ' :: (serItems (y :: t2) ++ ']' :: rest)) hparts.1
            (by omega) rfl]
          have hwy : wfJson y = true := by
            rw [wfItems_cons] at hwf
            have h2 := (Bool.and_eq_true_iff.mp hwf).2
            rw [wfItems_cons] at h2
            exact (Bool.and_eq_true_iff.mp h2).1
          have hsk := skipWs_serItems y t2 hwy (']' :: rest)
          have hrec := ihi (y :: t2) rest (by simp) hparts.2 (by omega)
          simp [skipWs_comma, skipWs_space, hsk, hrec]
    · intro kvs acc rest hne hwf hsz
      match kvs, hne with
      | kv :: t, _ =>
        have hparts : wfJson kv.2 = true ∧ wfMems t = true := by
          rw [wfMems_cons] at hwf
          exact Bool.and_eq_true_iff.mp hwf
        rw [jsizeMems_cons] at hsz
        obtain ⟨tail2, htl⟩ := serMems_cons_shape kv t
        simp only [parseMems]
        cases t with
        | nil =>
          have htl2 : serMems [kv] ++ '}' :: rest =
              '"' :: (escape kv.1.data ++ '"' :: (':' :: ' ' :: (ser kv.2 ++ '}' :: rest))) := by
            rw [show serMems [kv] =
              '"' :: escape kv.1.data ++ '"' :: ':' :: ' ' :: ser kv.2 from rfl]
            simp
          rw [htl2]
          simp only [parseStr_escape, skipWs_colon, skipWs_space,
            skipWs_ser_append kv.2 hparts.1,
            ihv kv.2 ('}' :: rest) hparts.1 (by omega) rfl,
            skipWs_rbrace, foldUpd, string_eta]
        | cons kv2 t2 =>
          have htl2 : serMems (kv :: kv2 :: t2) ++ '}' :: rest =
              '"' :: (escape kv.1.data ++ '"' ::
                (':' :: ' ' :: (ser kv.2 ++ ',' :: ' ' :: (serMems (kv2 :: t2) ++
                  '}' :: rest)))) := by
            rw [show serMems (kv :: kv2 :: t2) =
              ('"' :: escape kv.1.data ++ '"' :: ':' :: ' ' :: ser kv.2) ++
                ',' :: ' ' :: serMems (kv2 :: t2) from rfl]
            simp
          rw [htl2]
          have hsk : skipWs (serMems (kv2 :: t2) ++ '}' :: rest) =
              serMems (kv2 :: t2) ++ '}' :: rest := by
            obtain ⟨tail3, htl3⟩ := serMems_cons_shape kv2 t2
            rw [htl3]
            simp only [List.cons_append]
            rw [skipWs_quote]
          have hrec := ihm (kv2 :: t2) (assocUpd acc kv.1 kv.2) rest (by simp) hparts.2
            (by omega)
          simp only [parseStr_escape, skipWs_colon, skipWs_space,
            skipWs_ser_append kv.2 hparts.1,
            ihv kv.2 (',' :: ' ' :: (serMems (kv2 :: t2) ++ '}' :: rest)) hparts.1
              (by omega) rfl,
            skipWs_comma, hsk, hrec, foldUpd, string_eta]

theorem loads_ser (v : Json) (h : wfJson v = true) : loads (ser v) = some v := by
  unfold loads
  have hsk : skipWs (ser v) = ser v := by
    have := skipWs_ser_append v h []
    simpa using this
  rw [hsk]
  have hle := jsize_le_ser v h
  have hp := (parse_ser ((ser v).length + 1)).1 v [] h (by omega) rfl
  rw [show ser v ++ ([] : List Char) = ser v from by simp] at hp
  rw [hp]
  rfl

theorem pySlice_natCast (s : List Char) (a b : Nat) :
    pySlice s (a : Int) (b : Int) = (s.take b).drop a := by
  unfold pySlice
  dsimp only []
  rw [if_neg (by omega), if_neg (by omega)]
  have h1 : (min (a : Int) (s.length : Int)).toNat = min a s.length := by omega
  have h2 : (min (b : Int) (s.length : Int)).toNat = min b s.length := by omega
  rw [h1, h2]
  rcases Nat.le_total b s.length with hb | hb
  · rw [min_eq_left hb]
    rcases Nat.le_total a s.length with ha | ha
    · rw [min_eq_left ha]
    · rw [min_eq_right ha]
      rw [List.drop_eq_nil_of_le (by simp only [List.length_take]; omega),
        List.drop_eq_nil_of_le (by simp only [List.length_take]; omega)]
  · rw [min_eq_right hb, List.take_of_length_le hb, List.take_of_length_le (by omega)]
    rcases Nat.le_total a s.length with ha | ha
    · rw [min_eq_left ha]
    · rw [min_eq_right ha]
      rw [List.drop_eq_nil_of_le (by omega), List.drop_eq_nil_of_le (by omega)]

/-! Extraction behaviour of the tiered response parser on specific text shapes. -/

theorem extract_whole (t : List Char) (h1 : hasSub t btjTag = false)
    (h2 : hasSub t ['{'] = false) : extractJsonStr t = t := by
  unfold extractJsonStr
  rw [if_neg (by simp [h1]), if_neg (by simp [h2])]

theorem extract_brace_core (m : List Char)
    (hbt : hasSub ("noise ".data ++ ('{' :: (m ++ ['}'])) ++ " trailing".data) btjTag = false) :
    extractJsonStr ("noise ".data ++ ('{' :: (m ++ ['}'])) ++ " trailing".data) =
      '{' :: (m ++ ['}']) := by
  rw [List.append_assoc] at hbt ⊢
  set noise : List Char := "noise ".data with hnoise
  set trail : List Char := " trailing".data with htrail
  set d : List Char := '{' :: (m ++ ['}']) with hd
  have hassoc : noise ++ (d ++ trail) = (noise ++ d) ++ trail := by
    rw [List.append_assoc]
  have hfind : findSub (noise ++ (d ++ trail)) ['{'] = some 6 := by
    apply (findSub_some_iff _ _ _).mpr
    constructor
    · rw [List.drop_left' (show noise.length = 6 by rw [hnoise]; rfl)]
      rw [hd]
      simp [isPref]
    · intro j hj
      have hshape : noise ++ (d ++ trail) =
          'n' :: 'o' :: 'i' :: 's' :: 'e' :: ' ' :: (d ++ trail) := by
        rw [hnoise]
        rfl
      rw [hshape]
      interval_cases j <;> simp [isPref, List.drop]
  have hhas : hasSub (noise ++ (d ++ trail)) ['{'] = true := by
    rw [hasSub, hfind]
    rfl
  have hsplit : noise ++ (d ++ trail) = (noise ++ '{' :: m) ++ ('}' :: trail) := by
    rw [hd]
    simp
  have hlen2 : (noise ++ '{' :: m).length = m.length + 7 := by
    rw [hnoise]
    simp
  have hlenA : (noise ++ d).length = m.length + 8 := by
    rw [hnoise, hd]
    simp
  have hrfind : rfindSub (noise ++ (d ++ trail)) ['}'] = some (m.length + 7) := by
    apply (rfindSub_some_iff _ _ _ (by simp)).mpr
    constructor
    · rw [hsplit, List.drop_left' hlen2]
      simp [isPref]
    · intro j hj
      cases hb : isPref ['}'] ((noise ++ (d ++ trail)).drop j) with
      | false => rfl
      | true =>
        obtain ⟨rest2, hr2⟩ := isPref_one hb
        have hj0 : (noise ++ (d ++ trail))[j]? = some '}' := by
          have := List.getElem?_drop (noise ++ (d ++ trail)) j 0
          rw [hr2] at this
          simpa using this.symm
        rw [hassoc, List.getElem?_append_right (by omega)] at hj0
        have hmem : '}' ∈ trail := List.getElem?_mem hj0
        rw [htrail] at hmem
        exact absurd hmem (by decide)
  unfold extractJsonStr
  rw [if_neg (by simp [hbt])]
  rw [if_pos (by simp [hhas])]
  rw [hfind, hrfind]
  dsimp only []
  have hcast : ((m.length + 7 : Nat) : Int) + 1 = ((m.length + 8 : Nat) : Int) := by
    push_cast
    ring
  rw [hcast]
  rw [show ((6 : Nat) : Int) = ((6 : Nat) : Int) from rfl]
  rw [pySlice_natCast]
  rw [hassoc, List.take_left' hlenA]
  rw [List.drop_left' (show noise.length = 6 by rw [hnoise]; rfl)]

theorem extract_c9 (t : List Char) (i : Nat)
    (hf : findSub t btjTag = some i)
    (hn : findFromI t bt3 ((i : Int) + 7) = none) :
    extractJsonStr t = stripBoth ((t.take (t.length - 1)).drop (i + 7)) := by
  have hb : i + 7 ≤ t.length := by
    have := findSub_bound hf (by simp [btjTag])
    simpa [btjTag] using this
  have hhas : hasSub t btjTag = true := by
    rw [hasSub, hf]
    rfl
  unfold extractJsonStr
  rw [if_pos (by simp [hhas])]
  dsimp only []
  rw [hf]
  dsimp only []
  rw [hn]
  dsimp only []
  congr 1
  unfold pySlice
  dsimp only []
  rw [if_neg (by omega), if_pos (by omega)]
  have h1 : (max 0 (-1 + (t.length : Int))).toNat = t.length - 1 := by omega
  have h2 : (min ((i : Int) + 7) (t.length : Int)).toNat = i + 7 := by omega
  rw [h1, h2]

theorem isPref_append_of_le (sub A B : List Char) (h : sub.length ≤ A.length) :
    isPref sub (A ++ B) = isPref sub A := by
  induction sub generalizing A with
  | nil => simp [isPref]
  | cons c s ih =>
    cases A with
    | nil => simp at h
    | cons a A2 =>
      simp only [List.cons_append, isPref, List.append_eq]
      rw [ih A2 (by simpa using h)]

theorem stripBoth_nl (x : List Char) :
    stripBoth ('\n' :: (('{' :: (x ++ ['}'])) ++ ['\n'])) = '{' :: (x ++ ['}']) := by
  unfold stripBoth
  rw [List.dropWhile_cons_of_pos (by decide)]
  rw [List.cons_append]
  rw [List.dropWhile_cons_of_neg (by decide)]
  have hr : ('{' :: ((x ++ ['}']) ++ ['\n'])).reverse =
      '\n' :: ('}' :: (x.reverse ++ ['{'])) := by
    simp
  rw [hr]
  rw [List.dropWhile_cons_of_pos (by decide)]
  rw [List.dropWhile_cons_of_neg (by decide)]
  simp

theorem extract_fence_core (mm : List Char)
    (hd3 : hasSub ('{' :: (mm ++ ['}'])) bt3 = false) :
    extractJsonStr ("```json\n".data ++ ('{' :: (mm ++ ['}'])) ++ "\n```".data) =
      '{' :: (mm ++ ['}']) := by
  rw [List.append_assoc]
  set head : List Char := "```json\n".data with hhead
  set tail : List Char := "\n```".data with htail0
  set d : List Char := '{' :: (mm ++ ['}']) with hd
  have hsplit1 : head = btjTag ++ ['\n'] := by decide
  have htail : tail = '\n' :: bt3 := by decide
  have hnone : ∀ k, isPref bt3 (d.drop k) = false := by
    have hfn : findSub d bt3 = none := by
      rw [hasSub] at hd3
      cases hfd : findSub d bt3 with
      | none => rfl
      | some x =>
        rw [hfd] at hd3
        simp at hd3
    exact fun k => (findSub_none_iff d bt3).mp hfn k
  have hfind : findSub (head ++ (d ++ tail)) btjTag = some 0 := by
    apply (findSub_some_iff _ _ _).mpr
    constructor
    · rw [List.drop_zero, hsplit1, List.append_assoc]
      exact isPref_append _ _
    · intro j hj
      exact absurd hj (Nat.not_lt_zero j)
  have hfs : findSub ('\n' :: (d ++ tail)) bt3 = some (d.length + 2) := by
    apply (findSub_some_iff _ _ _).mpr
    constructor
    · rw [show d.length + 2 = d.length + 1 + 1 from rfl, List.drop_succ_cons]
      have hsp : d ++ tail = (d ++ ['\n']) ++ bt3 := by
        rw [htail]
        simp
      rw [hsp, List.drop_left' (by simp)]
      decide
    · intro j hj
      cases j with
      | zero =>
        rw [List.drop_zero]
        have hb : (btick == '\n') = false := by decide
        simp [bt3, isPref, hb]
      | succ j2 =>
        rw [List.drop_succ_cons]
        have hj2 : j2 ≤ d.length := by omega
        by_cases hc : j2 + 3 ≤ d.length
        · rw [List.drop_append_of_le_length (by omega)]
          rw [isPref_append_of_le _ _ _ (by simp [bt3]; omega)]
          exact hnone j2
        · cases hbp : isPref bt3 ((d ++ tail).drop j2) with
          | false => rfl
          | true =>
            rw [show bt3 = [btick, btick, btick] from rfl] at hbp
            obtain ⟨rest, hrest⟩ := isPref_three hbp
            have hk2 : d.length - j2 ≤ 2 := by omega
            have h2 := List.getElem?_drop (d ++ tail) j2 (d.length - j2)
            rw [hrest] at h2
            have hkv : (btick :: btick :: btick :: rest)[d.length - j2]? = some btick := by
              have hcases : d.length - j2 = 0 ∨ d.length - j2 = 1 ∨ d.length - j2 = 2 := by
                omega
              rcases hcases with h | h | h <;> rw [h] <;> simp
            rw [hkv] at h2
            rw [show j2 + (d.length - j2) = d.length from by omega] at h2
            have hnl : (d ++ tail)[d.length]? = some '\n' := by
              rw [List.getElem?_append_right (le_refl _)]
              rw [htail]
              simp
            rw [hnl] at h2
            have hne := Option.some.inj h2
            exact absurd hne (by decide)
  have hffi : findFromI (head ++ (d ++ tail)) bt3 (7 : Int) = some (d.length + 9) := by
    unfold findFromI
    dsimp only []
    rw [if_neg (by omega)]
    rw [show (7 : Int).toNat = 7 from rfl]
    have hds : (head ++ (d ++ tail)).drop 7 = '\n' :: (d ++ tail) := by
      rw [hsplit1, List.append_assoc]
      rw [List.drop_left' (show btjTag.length = 7 from rfl)]
      rfl
    rw [hds, hfs]
    simp
  have hhas : hasSub (head ++ (d ++ tail)) btjTag = true := by
    rw [hasSub, hfind]
    rfl
  unfold extractJsonStr
  rw [if_pos (by simp [hhas])]
  dsimp only []
  rw [hfind]
  dsimp only []
  rw [show ((0 : Nat) : Int) + 7 = (7 : Int) from by norm_num]
  rw [hffi]
  dsimp only []
  rw [show (7 : Int) = ((7 : Nat) : Int) from rfl]
  rw [pySlice_natCast]
  have htake : (head ++ (d ++ tail)).take (d.length + 9) = head ++ (d ++ ['\n']) := by
    have hsplit2 : head ++ (d ++ tail) = (head ++ (d ++ ['\n'])) ++ bt3 := by
      rw [htail]
      simp
    rw [hsplit2]
    apply List.take_left'
    rw [hhead]
    simp
  rw [htake]
  have hdrop : (head ++ (d ++ ['\n'])).drop 7 = '\n' :: (d ++ ['\n']) := by
    rw [hsplit1, List.append_assoc]
    rw [List.drop_left' (show btjTag.length = 7 from rfl)]
    rfl
  rw [hdrop, hd]
  exact stripBoth_nl mm

theorem study_defaults (llm : LLM) (θ c s : String) (ud : Option (List Doc))
    (ct : Option (List (String × Json))) :
    generate_study_material llm θ c s ud ct =
      generate_study_material llm θ c s
        (some (match ud with | some l => l | none => []))
        (some (match ct with | some l => l | none => [])) := by
  cases ud <;> cases ct <;> rfl

theorem study_run_eq (llm : LLM) (θ c s : String) (ud : List Doc)
    (ct : List (String × Json)) :
    generate_study_material llm θ c s (some ud) (some ct) =
      match llm (generate_prompt θ c s ud ct ++ "\n\nNow provide the STUDY CONTENT & KEY POINTS section only.") with
      | .error e => .error e
      | .ok r0 =>
      match llm (generate_prompt θ c s ud ct ++ "\n\nNow provide the MCQs section only, respecting the requested counts.") with
      | .error e => .error e
      | .ok r1 =>
      match llm (generate_prompt θ c s ud ct ++ "\n\nNow provide the True/False section only, respecting the requested counts.") with
      | .error e => .error e
      | .ok r2 =>
      match llm (generate_prompt θ c s ud ct ++ "\n\nNow provide the Fill-in-the-Blanks section only, respecting the requested counts.") with
      | .error e => .error e
      | .ok r3 =>
      match llm (generate_prompt θ c s ud ct ++ "\n\nNow provide the Short Q&A section only, respecting the requested counts and length.") with
      | .error e => .error e
      | .ok r4 =>
      match llm (generate_prompt θ c s ud ct ++ "\n\nNow provide the Medium Q&A section only, respecting the requested counts and length.") with
      | .error e => .error e
      | .ok r5 =>
      match llm (generate_prompt θ c s ud ct ++ "\n\nNow provide the Long Q&A section only, respecting the requested counts and length.") with
      | .error e => .error e
      | .ok r6 =>
      .ok ({ theme := θ, class_name := c, subject := s, prompt := "",
             study_content := r0, mcqs := r1, true_false := r2, fill_blanks := r3,
             short_qa := r4, medium_qa := r5, long_qa := r6,
             user_docs := ud, counts := ct },
        studyPrompts θ c s ud ct) := by
  cases h0 : llm (generate_prompt θ c s ud ct ++ "\n\nNow provide the STUDY CONTENT & KEY POINTS section only.") with
  | error e => simp [generate_study_material, invokeGraph, runGraph, study_graph, build_study_graph, nextNode, nodeFn, STARTN, ENDN, generate_study_content, generate_mcqs, generate_true_false, generate_fill_blanks, generate_short_qa, generate_medium_qa, generate_long_qa, studyPrompts, h0]
  | ok r0 =>
    cases h1 : llm (generate_prompt θ c s ud ct ++ "\n\nNow provide the MCQs section only, respecting the requested counts.") with
    | error e => simp [generate_study_material, invokeGraph, runGraph, study_graph, build_study_graph, nextNode, nodeFn, STARTN, ENDN, generate_study_content, generate_mcqs, generate_true_false, generate_fill_blanks, generate_short_qa, generate_medium_qa, generate_long_qa, studyPrompts, h0, h1]
    | ok r1 =>
      cases h2 : llm (generate_prompt θ c s ud ct ++ "\n\nNow provide the True/False section only, respecting the requested counts.") with
      | error e => simp [generate_study_material, invokeGraph, runGraph, study_graph, build_study_graph, nextNode, nodeFn, STARTN, ENDN, generate_study_content, generate_mcqs, generate_true_false, generate_fill_blanks, generate_short_qa, generate_medium_qa, generate_long_qa, studyPrompts, h0, h1, h2]
      | ok r2 =>
        cases h3 : llm (generate_prompt θ c s ud ct ++ "\n\nNow provide the Fill-in-the-Blanks section only, respecting the requested counts.") with
        | error e => simp [generate_study_material, invokeGraph, runGraph, study_graph, build_study_graph, nextNode, nodeFn, STARTN, ENDN, generate_study_content, generate_mcqs, generate_true_false, generate_fill_blanks, generate_short_qa, generate_medium_qa, generate_long_qa, studyPrompts, h0, h1, h2, h3]
        | ok r3 =>
          cases h4 : llm (generate_prompt θ c s ud ct ++ "\n\nNow provide the Short Q&A section only, respecting the requested counts and length.") with
          | error e => simp [generate_study_material, invokeGraph, runGraph, study_graph, build_study_graph, nextNode, nodeFn, STARTN, ENDN, generate_study_content, generate_mcqs, generate_true_false, generate_fill_blanks, generate_short_qa, generate_medium_qa, generate_long_qa, studyPrompts, h0, h1, h2, h3, h4]
          | ok r4 =>
            cases h5 : llm (generate_prompt θ c s ud ct ++ "\n\nNow provide the Medium Q&A section only, respecting the requested counts and length.") with
            | error e => simp [generate_study_material, invokeGraph, runGraph, study_graph, build_study_graph, nextNode, nodeFn, STARTN, ENDN, generate_study_content, generate_mcqs, generate_true_false, generate_fill_blanks, generate_short_qa, generate_medium_qa, generate_long_qa, studyPrompts, h0, h1, h2, h3, h4, h5]
            | ok r5 =>
              cases h6 : llm (generate_prompt θ c s ud ct ++ "\n\nNow provide the Long Q&A section only, respecting the requested counts and length.") with
              | error e => simp [generate_study_material, invokeGraph, runGraph, study_graph, build_study_graph, nextNode, nodeFn, STARTN, ENDN, generate_study_content, generate_mcqs, generate_true_false, generate_fill_blanks, generate_short_qa, generate_medium_qa, generate_long_qa, studyPrompts, h0, h1, h2, h3, h4, h5, h6]
              | ok r6 =>
                simp [generate_study_material, invokeGraph, runGraph, study_graph, build_study_graph, nextNode, nodeFn, STARTN, ENDN, generate_study_content, generate_mcqs, generate_true_false, generate_fill_blanks, generate_short_qa, generate_medium_qa, generate_long_qa, studyPrompts, h0, h1, h2, h3, h4, h5, h6]

theorem parseValue_double_brace (f : Nat) (rest : List Char) :
    parseValue (f + 2) ('{' :: '{' :: rest) = none := by
  have hskip : skipWs ('{' :: rest) = '{' :: rest := by
    rw [skipWs, List.dropWhile_cons_of_neg (by decide)]
  show parseValue ((f + 1) + 1) ('{' :: '{' :: rest) = none
  rw [parseValue]
  rw [if_neg (by decide), if_pos rfl]
  rw [hskip]
  show parseMems (f + 1) [] ('{' :: rest) = none
  rw [parseMems]
  intro r h
  injection h with h1
  exact absurd h1 (by decide)

theorem loads_double_brace (rest : List Char) :
    loads ('{' :: '{' :: rest) = none := by
  unfold loads
  rw [show skipWs ('{' :: '{' :: rest) = '{' :: '{' :: rest from by
    rw [skipWs, List.dropWhile_cons_of_neg (by decide)]]
  rw [show ('{' :: '{' :: rest : List Char).length + 1 = rest.length + 2 + 1 from by
    simp]
  rw [show rest.length + 2 + 1 = (rest.length + 1) + 2 from by omega]
  rw [parseValue_double_brace]

theorem study_ok_split (llm : LLM) (θ c s : String) (udl : List Doc)
    (ctl : List (String × Json)) (r : StudyMaterialState) (log : List String)
    (h : generate_study_material llm θ c s (some udl) (some ctl) = Except.ok (r, log)) :
    ∃ r0 r1 r2 r3 r4 r5 r6,
      llm (generate_prompt θ c s udl ctl ++ "\n\nNow provide the STUDY CONTENT & KEY POINTS section only.") = Except.ok r0 ∧
      llm (generate_prompt θ c s udl ctl ++ "\n\nNow provide the MCQs section only, respecting the requested counts.") = Except.ok r1 ∧
      llm (generate_prompt θ c s udl ctl ++ "\n\nNow provide the True/False section only, respecting the requested counts.") = Except.ok r2 ∧
      llm (generate_prompt θ c s udl ctl ++ "\n\nNow provide the Fill-in-the-Blanks section only, respecting the requested counts.") = Except.ok r3 ∧
      llm (generate_prompt θ c s udl ctl ++ "\n\nNow provide the Short Q&A section only, respecting the requested counts and length.") = Except.ok r4 ∧
      llm (generate_prompt θ c s udl ctl ++ "\n\nNow provide the Medium Q&A section only, respecting the requested counts and length.") = Except.ok r5 ∧
      llm (generate_prompt θ c s udl ctl ++ "\n\nNow provide the Long Q&A section only, respecting the requested counts and length.") = Except.ok r6 ∧
      r = { theme := θ, class_name := c, subject := s, prompt := "",
            study_content := r0, mcqs := r1, true_false := r2, fill_blanks := r3,
            short_qa := r4, medium_qa := r5, long_qa := r6,
            user_docs := udl, counts := ctl } ∧
      log = studyPrompts θ c s udl ctl := by
  rw [study_run_eq] at h
  split at h
  · simp at h
  · rename_i r0 heq0
    split at h
    · simp at h
    · rename_i r1 heq1
      split at h
      · simp at h
      · rename_i r2 heq2
        split at h
        · simp at h
        · rename_i r3 heq3
          split at h
          · simp at h
          · rename_i r4 heq4
            split at h
            · simp at h
            · rename_i r5 heq5
              split at h
              · simp at h
              · rename_i r6 heq6
                injection h with h2
                injection h2 with h3 h4
                subst h3
                subst h4
                exact ⟨r0, r1, r2, r3, r4, r5, r6, heq0, heq1, heq2, heq3, heq4, heq5,
                  heq6, rfl, rfl⟩

/-- C1: corrected. For a JSON object O, the text "noise \x7b" ++ dumps O ++
"\x7d trailing" does NOT parse back to O: the brace tier slices from the first
brace (the literal one in "noise \x7b") to the last brace, yielding
"\x7b" ++ dumps O ++ "\x7d", which is never valid JSON, so the shared parse
step returns the fallback object holding the raw text. -/
theorem claim_C1 (kvs : List (String × Json)) (k : String)
    (hbt : hasSub ("noise ".data ++ ('{' :: (ser (Json.obj kvs) ++ ['}'])) ++
        " trailing".data) btjTag = false) :
    parseResponse k (String.mk ("noise ".data ++
        ('{' :: (ser (Json.obj kvs) ++ ['}'])) ++ " trailing".data)) =
      Json.obj [(k, Json.str (String.mk ("noise ".data ++
        ('{' :: (ser (Json.obj kvs) ++ ['}'])) ++ " trailing".data)))] := by
  unfold parseResponse
  have hdm : ∀ l : List Char, (String.mk l).data = l := fun l => rfl
  rw [hdm]
  rw [extract_brace_core (ser (Json.obj kvs)) hbt]
  rw [show ('{' :: (ser (Json.obj kvs) ++ ['}'])) =
      '{' :: '{' :: ((serMems kvs ++ ['}']) ++ ['}']) from rfl]
  rw [loads_double_brace]

/-- C1 witness: the concrete object O = \x7b\x7d wrapped as in the claim is
sent to the fallback branch. -/
theorem claim_C1_witness :
    parseResponse "raw_response" (String.mk ("noise ".data ++
        ('{' :: (ser (Json.obj []) ++ ['}'])) ++ " trailing".data)) =
      Json.obj [("raw_response", Json.str (String.mk ("noise ".data ++
        ('{' :: (ser (Json.obj []) ++ ['}'])) ++ " trailing".data)))] :=
  claim_C1 [] "raw_response" (by decide)

/-- C1 counterexample to the claim as stated: with O = \x7b\x7d the parse of
"noise \x7b\x7b\x7d\x7d trailing" is the fallback object, not O. -/
theorem claim_C1_counterexample :
    parseResponse "raw_response" "noise \x7b\x7b\x7d\x7d trailing" ≠ Json.obj [] := by
  have hres : parseResponse "raw_response" "noise \x7b\x7b\x7d\x7d trailing" =
      Json.obj [("raw_response", Json.str "noise \x7b\x7b\x7d\x7d trailing")] := rfl
  intro h
  rw [hres] at h
  injection h with hl
  exact absurd hl (by simp)

/-- C2: corrected. A text with no brace and no fenced tag is passed whole to
json.loads; the fallback object with the exact raw text appears only when
that parse fails, not for every brace-free text. -/
theorem claim_C2 (k t : String) (h1 : hasSub t.data btjTag = false)
    (h2 : hasSub t.data ['{'] = false) (h3 : loads t.data = none) :
    parseResponse k t = Json.obj [(k, Json.str t)] := by
  unfold parseResponse
  rw [extract_whole t.data h1 h2, h3]

/-- C2 witness: "hello" has no brace and is not JSON, so the fallback object
carries it verbatim. -/
theorem claim_C2_witness :
    parseResponse "raw_response" "hello" =
      Json.obj [("raw_response", Json.str "hello")] :=
  claim_C2 "raw_response" "hello" (by decide) (by decide) rfl

/-- C2 counterexample to the claim as stated: "null" contains no brace yet
parses to the JSON null value, not to a fallback object. -/
theorem claim_C2_counterexample :
    hasSub "null".data ['{'] = false ∧
      parseResponse "raw_response" "null" = Json.null ∧
      parseResponse "raw_response" "null" ≠
        Json.obj [("raw_response", Json.str "null")] := by
  refine ⟨by decide, rfl, ?_⟩
  intro h
  rw [show parseResponse "raw_response" "null" = Json.null from rfl] at h
  exact Json.noConfusion h

/-- C3: corrected. The fenced round trip holds for a well-formed JSON object
whose serialization contains no triple-backtick; without that restriction the
closing-fence search can cut inside the object text. -/
theorem claim_C3 (kvs : List (String × Json)) (k : String)
    (hwf : wfJson (Json.obj kvs) = true)
    (h3 : hasSub (ser (Json.obj kvs)) bt3 = false) :
    parseResponse k (String.mk ("```json\n".data ++ ser (Json.obj kvs) ++
        "\n```".data)) = Json.obj kvs := by
  unfold parseResponse
  have hdm : ∀ l : List Char, (String.mk l).data = l := fun l => rfl
  rw [hdm]
  have hser : ser (Json.obj kvs) = '{' :: (serMems kvs ++ ['}']) := rfl
  rw [hser] at h3 ⊢
  rw [extract_fence_core (serMems kvs) h3]
  rw [← hser]
  rw [loads_ser (Json.obj kvs) hwf]

/-- C3 witness: the object \x7b"a": 1\x7d round-trips through the fenced
block. -/
theorem claim_C3_witness :
    parseResponse "raw_response" (String.mk ("```json\n".data ++
        ser (Json.obj [("a", Json.num 1)]) ++ "\n```".data)) =
      Json.obj [("a", Json.num 1)] :=
  claim_C3 [("a", Json.num 1)] "raw_response" (by decide) (by decide)

/-- C3 counterexample to the claim as stated: the well-formed object whose
sole value is the string of three backticks breaks the fence, and the parse
falls back instead of returning the object. -/
theorem claim_C3_counterexample :
    wfJson (Json.obj [("a", Json.str "```")]) = true ∧
      parseResponse "raw_response" (String.mk ("```json\n".data ++
          ser (Json.obj [("a", Json.str "```")]) ++ "\n```".data)) ≠
        Json.obj [("a", Json.str "```")] := by
  refine ⟨by decide, ?_⟩
  intro h
  rw [show parseResponse "raw_response" (String.mk ("```json\n".data ++
      ser (Json.obj [("a", Json.str "```")]) ++ "\n```".data)) =
    Json.obj [("raw_response", Json.str (String.mk ("```json\n".data ++
      ser (Json.obj [("a", Json.str "```")]) ++ "\n```".data)))] from rfl] at h
  injection h with hl
  injection hl with hp ht
  have hk := congrArg Prod.fst hp
  exact absurd hk (by decide)

/-- C4: confirmed. A successful run returns a record whose section table has
exactly the seven fixed keys, each bound to a string produced by a successful
completion call of the run. -/
theorem claim_C4 (llm : LLM) (θ c s : String) (ud : Option (List Doc))
    (ct : Option (List (String × Json))) (r : StudyMaterialState) (log : List String)
    (h : generate_study_material llm θ c s ud ct = Except.ok (r, log)) :
    (sectionEntries r).map Prod.fst =
      ["study_content", "mcqs", "true_false", "fill_blanks", "short_qa",
        "medium_qa", "long_qa"] ∧
      ∀ p ∈ sectionEntries r, ∃ q, q ∈ log ∧ llm q = Except.ok p.2 := by
  have core : ∀ (udl : List Doc) (ctl : List (String × Json)),
      generate_study_material llm θ c s (some udl) (some ctl) = Except.ok (r, log) →
      (sectionEntries r).map Prod.fst =
        ["study_content", "mcqs", "true_false", "fill_blanks", "short_qa",
          "medium_qa", "long_qa"] ∧
        ∀ p ∈ sectionEntries r, ∃ q, q ∈ log ∧ llm q = Except.ok p.2 := by
    intro udl ctl h2
    obtain ⟨r0, r1, r2, r3, r4, r5, r6, h0, h1, h2', h3, h4, h5, h6, hr, hl⟩ :=
      study_ok_split _ _ _ _ _ _ _ _ h2
    subst hr
    subst hl
    refine ⟨rfl, ?_⟩
    intro p hp
    simp only [sectionEntries, List.mem_cons, List.not_mem_nil, or_false] at hp
    rcases hp with rfl | rfl | rfl | rfl | rfl | rfl | rfl
    · exact ⟨_, by simp [studyPrompts], h0⟩
    · exact ⟨_, by simp [studyPrompts], h1⟩
    · exact ⟨_, by simp [studyPrompts], h2'⟩
    · exact ⟨_, by simp [studyPrompts], h3⟩
    · exact ⟨_, by simp [studyPrompts], h4⟩
    · exact ⟨_, by simp [studyPrompts], h5⟩
    · exact ⟨_, by simp [studyPrompts], h6⟩
  cases ud with
  | none =>
    cases ct with
    | none => exact core [] [] h
    | some ctl => exact core [] ctl h
  | some udl =>
    cases ct with
    | none => exact core udl [] h
    | some ctl => exact core udl ctl h

/-- C4 witness: a concrete successful run with a constant oracle. -/
theorem claim_C4_witness :
    (sectionEntries ⟨"t", "c", "s", "", "X", "X", "X", "X", "X", "X", "X",
        [], []⟩).map Prod.fst =
      ["study_content", "mcqs", "true_false", "fill_blanks", "short_qa",
        "medium_qa", "long_qa"] ∧
      ∀ p ∈ sectionEntries ⟨"t", "c", "s", "", "X", "X", "X", "X", "X", "X", "X",
          [], []⟩,
        ∃ q, q ∈ studyPrompts "t" "c" "s" [] [] ∧
          okOracle (fun _ => "X") q = Except.ok p.2 :=
  claim_C4 (okOracle (fun _ => "X")) "t" "c" "s" none none
    ⟨"t", "c", "s", "", "X", "X", "X", "X", "X", "X", "X", [], []⟩
    (studyPrompts "t" "c" "s" [] []) rfl

/-- C5: confirmed. If the completion client fails on the k-th of the seven
prompts (the earlier ones having succeeded), the whole workflow returns that
very error and no record. -/
theorem claim_C5 (llm : LLM) (θ c s : String) (ud : List Doc)
    (ct : List (String × Json)) (k : Nat) (e : ServiceError) (hk : k < 7)
    (hpre : ∀ j, j < k →
      ∃ y, llm ((studyPrompts θ c s ud ct).getD j "") = Except.ok y)
    (hfail : llm ((studyPrompts θ c s ud ct).getD k "") = Except.error e) :
    generate_study_material llm θ c s (some ud) (some ct) = Except.error e := by
  rw [study_run_eq]
  interval_cases k
  · simp [studyPrompts] at hfail
    rw [hfail]
  · obtain ⟨y0, hy0⟩ := hpre 0 (by omega)
    simp [studyPrompts] at hy0 hfail
    rw [hy0, hfail]
  · obtain ⟨y0, hy0⟩ := hpre 0 (by omega)
    obtain ⟨y1, hy1⟩ := hpre 1 (by omega)
    simp [studyPrompts] at hy0 hy1 hfail
    rw [hy0, hy1, hfail]
  · obtain ⟨y0, hy0⟩ := hpre 0 (by omega)
    obtain ⟨y1, hy1⟩ := hpre 1 (by omega)
    obtain ⟨y2, hy2⟩ := hpre 2 (by omega)
    simp [studyPrompts] at hy0 hy1 hy2 hfail
    rw [hy0, hy1, hy2, hfail]
  · obtain ⟨y0, hy0⟩ := hpre 0 (by omega)
    obtain ⟨y1, hy1⟩ := hpre 1 (by omega)
    obtain ⟨y2, hy2⟩ := hpre 2 (by omega)
    obtain ⟨y3, hy3⟩ := hpre 3 (by omega)
    simp [studyPrompts] at hy0 hy1 hy2 hy3 hfail
    rw [hy0, hy1, hy2, hy3, hfail]
  · obtain ⟨y0, hy0⟩ := hpre 0 (by omega)
    obtain ⟨y1, hy1⟩ := hpre 1 (by omega)
    obtain ⟨y2, hy2⟩ := hpre 2 (by omega)
    obtain ⟨y3, hy3⟩ := hpre 3 (by omega)
    obtain ⟨y4, hy4⟩ := hpre 4 (by omega)
    simp [studyPrompts] at hy0 hy1 hy2 hy3 hy4 hfail
    rw [hy0, hy1, hy2, hy3, hy4, hfail]
  · obtain ⟨y0, hy0⟩ := hpre 0 (by omega)
    obtain ⟨y1, hy1⟩ := hpre 1 (by omega)
    obtain ⟨y2, hy2⟩ := hpre 2 (by omega)
    obtain ⟨y3, hy3⟩ := hpre 3 (by omega)
    obtain ⟨y4, hy4⟩ := hpre 4 (by omega)
    obtain ⟨y5, hy5⟩ := hpre 5 (by omega)
    simp [studyPrompts] at hy0 hy1 hy2 hy3 hy4 hy5 hfail
    rw [hy0, hy1, hy2, hy3, hy4, hy5, hfail]

/-- C5 witness: an oracle that always fails makes the workflow return its
error. -/
theorem claim_C5_witness :
    generate_study_material (fun _ => Except.error ⟨"boom"⟩) "t" "c" "s"
        (some []) (some []) = Except.error ⟨"boom"⟩ :=
  claim_C5 (fun _ => Except.error ⟨"boom"⟩) "t" "c" "s" [] [] 0 ⟨"boom"⟩
    (by omega) (fun j hj => absurd hj (by omega)) rfl

/-- C6: confirmed. The study graph's unique path from START is the fixed
linear chain through the seven section nodes to END, the edge sources are
distinct (no branching) and the path repeats no node (no loop or cycle);
every successful run's prompt log is exactly the seven per-section prompts in
that order, one completion call per step. -/
theorem claim_C6 :
    pathFrom study_graph 8 STARTN =
      [STARTN, "generate_study_content", "generate_mcqs", "generate_true_false",
        "generate_fill_blanks", "generate_short_qa", "generate_medium_qa",
        "generate_long_qa", ENDN] ∧
      (study_graph.edges.map Prod.fst).Nodup ∧
      [STARTN, "generate_study_content", "generate_mcqs", "generate_true_false",
        "generate_fill_blanks", "generate_short_qa", "generate_medium_qa",
        "generate_long_qa", ENDN].Nodup ∧
      ∀ (llm : LLM) (θ c s : String) (udl : List Doc)
        (ctl : List (String × Json)) (r : StudyMaterialState) (log : List String),
        generate_study_material llm θ c s (some udl) (some ctl) =
            Except.ok (r, log) →
          log = studyPrompts θ c s udl ctl := by
  refine ⟨rfl, by decide, by decide, ?_⟩
  intro llm θ c s udl ctl r log h
  obtain ⟨r0, r1, r2, r3, r4, r5, r6, h0, h1, h2, h3, h4, h5, h6, hr, hl⟩ :=
    study_ok_split _ _ _ _ _ _ _ _ h
  exact hl

/-- C7: confirmed. Both prompt builders are pure functions of their
arguments: equal inputs give byte-identical prompt strings. -/
theorem claim_C7 (θ c s θ2 c2 s2 : String) (ud ud2 : List Doc)
    (ct ct2 : List (String × Json)) (n1 n2 n3 n4 n5 n6 m1 m2 m3 m4 m5 m6 : Int) :
    (θ = θ2 ∧ c = c2 ∧ s = s2 ∧ ud = ud2 ∧ ct = ct2 →
      generate_prompt θ c s ud ct = generate_prompt θ2 c2 s2 ud2 ct2) ∧
      (θ = θ2 ∧ c = c2 ∧ s = s2 ∧ n1 = m1 ∧ n2 = m2 ∧ n3 = m3 ∧ n4 = m4 ∧
          n5 = m5 ∧ n6 = m6 →
        generate_test_prompt θ c s n1 n2 n3 n4 n5 n6 =
          generate_test_prompt θ2 c2 s2 m1 m2 m3 m4 m5 m6) := by
  constructor
  · rintro ⟨rfl, rfl, rfl, rfl, rfl⟩
    rfl
  · rintro ⟨rfl, rfl, rfl, rfl, rfl, rfl, rfl, rfl, rfl⟩
    rfl

/-- C9: confirmed. With an opening "```json" tag at index i and no closing
fence after it, the closing-fence search yields -1 and the Python slice
text[i+7:-1] keeps everything up to but excluding the last character; the
parser then strips that substring. -/
theorem claim_C9 (t : String) (i : Nat)
    (hf : findSub t.data btjTag = some i)
    (hn : findFromI t.data bt3 ((i : Int) + 7) = none) :
    extractJsonStr t.data =
      stripBoth ((t.data.take (t.data.length - 1)).drop (i + 7)) :=
  extract_c9 t.data i hf hn

/-- C9 witness: "```json ok" has the opening tag at 0 and no closing fence,
and the claim's slice equation holds on it. -/
theorem claim_C9_witness :
    findSub "```json ok".data btjTag = some 0 ∧
      findFromI "```json ok".data bt3 ((0 : Int) + 7) = none ∧
      extractJsonStr "```json ok".data =
        stripBoth ((("```json ok".data).take ("```json ok".data.length - 1)).drop
          (0 + 7)) :=
  ⟨by decide, by decide, claim_C9 "```json ok" 0 (by decide) (by decide)⟩

/-- C10: confirmed. A successful run returns the request fields and the
document context unchanged, with omitted documents and counts defaulting to
empty; only the section fields carry new data. -/
theorem claim_C10 (llm : LLM) (θ c s : String) (ud : Option (List Doc))
    (ct : Option (List (String × Json))) (r : StudyMaterialState) (log : List String)
    (h : generate_study_material llm θ c s ud ct = Except.ok (r, log)) :
    r.theme = θ ∧ r.class_name = c ∧ r.subject = s ∧ r.prompt = "" ∧
      r.user_docs = ud.getD [] ∧ r.counts = ct.getD [] := by
  have core : ∀ (udl : List Doc) (ctl : List (String × Json)),
      generate_study_material llm θ c s (some udl) (some ctl) = Except.ok (r, log) →
      r.theme = θ ∧ r.class_name = c ∧ r.subject = s ∧ r.prompt = "" ∧
        r.user_docs = udl ∧ r.counts = ctl := by
    intro udl ctl h2
    obtain ⟨r0, r1, r2, r3, r4, r5, r6, h0, h1, h2', h3, h4, h5, h6, hr, hl⟩ :=
      study_ok_split _ _ _ _ _ _ _ _ h2
    subst hr
    exact ⟨rfl, rfl, rfl, rfl, rfl, rfl⟩
  cases ud with
  | none =>
    cases ct with
    | none => exact core [] [] h
    | some ctl => exact core [] ctl h
  | some udl =>
    cases ct with
    | none => exact core udl [] h
    | some ctl => exact core udl ctl h

/-- C10 witness: a concrete successful run keeps its request fields. -/
theorem claim_C10_witness :
    (⟨"t", "c", "s", "", "X", "X", "X", "X", "X", "X", "X", [], []⟩ :
        StudyMaterialState).theme = "t" ∧
      (⟨"t", "c", "s", "", "X", "X", "X", "X", "X", "X", "X", [], []⟩ :
        StudyMaterialState).class_name = "c" ∧
      (⟨"t", "c", "s", "", "X", "X", "X", "X", "X", "X", "X", [], []⟩ :
        StudyMaterialState).subject = "s" ∧
      (⟨"t", "c", "s", "", "X", "X", "X", "X", "X", "X", "X", [], []⟩ :
        StudyMaterialState).prompt = "" ∧
      (⟨"t", "c", "s", "", "X", "X", "X", "X", "X", "X", "X", [], []⟩ :
        StudyMaterialState).user_docs = (none : Option (List Doc)).getD [] ∧
      (⟨"t", "c", "s", "", "X", "X", "X", "X", "X", "X", "X", [], []⟩ :
        StudyMaterialState).counts =
        (none : Option (List (String × Json))).getD [] :=
  claim_C10 (okOracle (fun _ => "X")) "t" "c" "s" none none
    ⟨"t", "c", "s", "", "X", "X", "X", "X", "X", "X", "X", [], []⟩
    (studyPrompts "t" "c" "s" [] []) rfl

/-- C8: corrected. generate_test does not enforce num_mcq = 0: the request
count only changes the prompt text, and the returned bank is exactly whatever
the completion text parses to, unfiltered. -/
theorem claim_C8 (f : String → String) (θ c s : String) (n2 n3 n4 n5 n6 : Int) :
    generate_test (okOracle f) θ c s 0 n2 n3 n4 n5 n6 =
      Except.ok ({ theme := θ, class_name := c, subject := s, num_mcq := 0,
                   num_true_false := n2, num_fill_blanks := n3, num_short_qa := n4,
                   num_medium_qa := n5, num_long_qa := n6,
                   questions := parseResponse "raw_response"
                     (f (generate_test_prompt θ c s 0 n2 n3 n4 n5 n6)),
                   user_answers := Json.obj [], corrections := Json.obj [] },
      [generate_test_prompt θ c s 0 n2 n3 n4 n5 n6]) := rfl

/-- C8 counterexample to the claim as stated: with num_mcq = 0 an oracle that
returns a bank holding one MCQ yields a returned bank whose "mcqs" entry has a
non-empty difficulty band. -/
theorem claim_C8_counterexample :
    ∃ st log,
      generate_test (okOracle (fun _ => "\x7b\"mcqs\": \x7b\"EASY\": [1]\x7d\x7d"))
          "t" "c" "s" 0 0 0 0 0 0 = Except.ok (st, log) ∧
        mcqsNoQuestions st.questions = false := by
  refine ⟨_, _, rfl, rfl⟩
